import Mathlib

/-!
# Verification of the `convert` office-document renderer

A shallow embedding of the xlsx → IR → HTML pipeline of the `convert`
repository, together with theorems settling the frozen claims about its
specification.  Go `float64` values are embedded as `ℚ` (every constant and
arithmetic operation the code performs on them is exact decimal arithmetic),
Go slices as `List`, Go `nil`-able pointers as `Option`, and Go maps as
tally functions together with an explicit key-iteration order (Go map
iteration order is unspecified, so theorems quantify over all admissible
orders).
-/

namespace Convert

/-! ## Sanitizers (xlsx html renderer)

`sanitizeColor` accepts exactly the strings matched by the Go regexp
`^[0-9a-fA-F]\x7b3\x7d([0-9a-fA-F]\x7b3\x7d)?$`, i.e. strings of exactly 3
or exactly 6 hexadecimal digits.  `sanitizeFontFamily` deletes every
character outside the class `[a-zA-Z0-9 ,_-]` (the Go code replaces each
maximal run of unsafe characters by the empty string, which deletes exactly
the unsafe characters). -/

/-- A hexadecimal digit `[0-9a-fA-F]`. -/
def isHexDigit (c : Char) : Bool :=
  c.isDigit || (97 ≤ c.toNat && c.toNat ≤ 102) || (65 ≤ c.toNat && c.toNat ≤ 70)

/-- Whether the Go regexp `hexColorRe` matches `s`: exactly 3 or 6 hex digits. -/
def hexColorMatch (s : String) : Bool :=
  (s.length == 3 || s.length == 6) && s.data.all isHexDigit

/-- `sanitizeColor` from the xlsx html renderer: the input if it is a valid
3- or 6-digit hex string, the empty string otherwise. -/
def sanitizeColor (s : String) : String :=
  if hexColorMatch s then s else ""

/-- A character of the safe font-family class `[a-zA-Z0-9 ,_-]`
(codes 32, 44, 95, 45 are space, comma, underscore, hyphen). -/
def isFontSafeChar (c : Char) : Bool :=
  c.isAlpha || c.isDigit || c = Char.ofNat 32 || c = Char.ofNat 44 ||
    c = Char.ofNat 95 || c = Char.ofNat 45

/-- `sanitizeFontFamily` from the xlsx html renderer: deletes every character
outside `[a-zA-Z0-9 ,_-]`. -/
def sanitizeFontFamily (s : String) : String :=
  String.mk (s.data.filter isFontSafeChar)

/-! ## Theme palette and `ThemeColorToRGB` (src/xlsx.go) -/

/-- `dml.CT_SystemColor`: only the `LastClrAttr` pointer is consulted. -/
structure RawSysClr where
  lastClr : Option String := none
deriving DecidableEq

/-- One `dml.CT_Color` slot of the theme's color scheme.  `srgbClr = some v`
models `SrgbClr ≠ nil` with `ValAttr = v`; `sysClr` models the `SysClr`
pointer. -/
structure RawThemeColor where
  srgbClr : Option String := none
  sysClr : Option RawSysClr := none
deriving DecidableEq

/-- `dml.CT_ColorScheme`: the twelve named slots, each a nil-able pointer. -/
structure RawClrScheme where
  dk1 : Option RawThemeColor := none
  lt1 : Option RawThemeColor := none
  dk2 : Option RawThemeColor := none
  lt2 : Option RawThemeColor := none
  accent1 : Option RawThemeColor := none
  accent2 : Option RawThemeColor := none
  accent3 : Option RawThemeColor := none
  accent4 : Option RawThemeColor := none
  accent5 : Option RawThemeColor := none
  accent6 : Option RawThemeColor := none
  hlink : Option RawThemeColor := none
  folHlink : Option RawThemeColor := none
deriving DecidableEq

/-- The `switch themeIdx` of `ThemeColorToRGB`: map an index to the palette
slot, `none` for any index outside 0–11 (the Go `default` branch and a `nil`
slot pointer both lead to the same `("", false)` result, so they are merged
into `none` here). -/
def themeSlot (cs : RawClrScheme) (themeIdx : Int) : Option RawThemeColor :=
  if themeIdx = 0 then cs.dk1
  else if themeIdx = 1 then cs.lt1
  else if themeIdx = 2 then cs.dk2
  else if themeIdx = 3 then cs.lt2
  else if themeIdx = 4 then cs.accent1
  else if themeIdx = 5 then cs.accent2
  else if themeIdx = 6 then cs.accent3
  else if themeIdx = 7 then cs.accent4
  else if themeIdx = 8 then cs.accent5
  else if themeIdx = 9 then cs.accent6
  else if themeIdx = 10 then cs.hlink
  else if themeIdx = 11 then cs.folHlink
  else none

/-- The tail of `ThemeColorToRGB`: `clr.SrgbClr ≠ nil` with non-empty
`ValAttr` wins, else a `SysClr` with a `LastClrAttr`, else unresolved. -/
def resolveThemeColor (c : RawThemeColor) : Option String :=
  match c.srgbClr with
  | some v =>
      if v ≠ "" then some v
      else match c.sysClr with
        | some sc => sc.lastClr
        | none => none
  | none =>
      match c.sysClr with
      | some sc => sc.lastClr
      | none => none

/-- The theme list of a workbook (`wb.Themes()`); an entry is `none` when the
`*dml.Theme` pointer is nil.  Each present theme is represented by its color
scheme, the only part `ThemeColorToRGB` reads. -/
def ThemeList := List (Option RawClrScheme)

/-- `ThemeColorToRGB` from src/xlsx.go: resolve a 0-based theme color index to
an RGB hex string, reporting `false` when the palette is missing, the index is
outside 0–11, or the slot cannot be resolved.  No tint is applied. -/
def ThemeColorToRGB (themes : List (Option RawClrScheme)) (themeIdx : Int) :
    String × Bool :=
  match themes.head? with
  | none => ("", false)
  | some none => ("", false)
  | some (some cs) =>
      match themeSlot cs themeIdx with
      | none => ("", false)
      | some c =>
          match resolveThemeColor c with
          | some v => (v, true)
          | none => ("", false)

/-! ## The intermediate representation (IR)

Mirrors the `CellStyle` / `RenderCell` / `RenderRow` / `RenderSheet` /
`WorkbookModel` structures of the xlsx package (the variant that carries
rich-text `Runs`; the `Cell` back-pointer into the document-model library is
omitted, no claim reads it). -/

/-- Resolved per-cell style record.  All properties are optional; the unset
state is the zero value (`""` / `0` / `false`). -/
structure CellStyle where
  FontFamily : String := ""
  FontSizePt : ℚ := 0
  FontColor : String := ""
  BackgroundColor : String := ""
  BorderColor : String := ""
  HorizontalAlign : String := ""
  VerticalAlign : String := ""
  WrapText : Bool := false
  IndentPx : ℚ := 0
deriving DecidableEq

/-- One rich-text run of a cell with its inline style overrides. -/
structure RenderRun where
  Text : String := ""
  FontFamily : String := ""
  FontSizePt : ℚ := 0
  FontColor : String := ""
  Bold : Bool := false
  Italic : Bool := false
  Underline : Bool := false
  Strike : Bool := false
  VerticalAlign : String := ""
deriving DecidableEq

/-- IR of a single cell (or merged master). -/
structure RenderCell where
  Ref : String := ""
  Value : String := ""
  Runs : List RenderRun := []
  ColSpan : Nat := 1
  RowSpan : Nat := 1
  Style : CellStyle := {}
deriving DecidableEq

/-- One logical row; `Cells` has one slot per column, `none` for blanks. -/
structure RenderRow where
  HeightPx : ℚ := 0
  Hidden : Bool := false
  Cells : List (Option RenderCell) := []
deriving DecidableEq

/-- IR of a worksheet. -/
structure RenderSheet where
  Name : String := ""
  ColWidths : List ℚ := []
  ColHidden : List Bool := []
  Rows : List RenderRow := []
deriving DecidableEq

/-- Top-level IR. -/
structure WorkbookModel where
  Sheets : List RenderSheet := []
deriving DecidableEq

/-! ## Raw document model (the unioffice object graph, as read by the parser)

Only the fields the parser actually dereferences are modelled; a Go nil-able
pointer becomes an `Option`. -/

/-- A color record carrying an optional direct RGB value (`RgbAttr`) and an
optional theme index (`ThemeAttr`). -/
structure RawColor where
  rgb : Option String := none
  theme : Option Nat := none
deriving DecidableEq

/-- `sml.CT_Font`: the parser reads `Name[0]`, `Sz[0]`, `Color[0]` after
length checks. -/
structure RawFont where
  name : List String := []
  sz : List ℚ := []
  color : List RawColor := []
deriving DecidableEq

/-- `CT_PatternFill` with its optional foreground color. -/
structure RawPatternFill where
  fgColor : Option RawColor := none
deriving DecidableEq

/-- `sml.CT_Fill`. -/
structure RawFill where
  patternFill : Option RawPatternFill := none
deriving DecidableEq

/-- The left border side; only its color's `RgbAttr` is read. -/
structure RawBorderSide where
  color : Option RawColor := none
deriving DecidableEq

/-- `sml.CT_Border`. -/
structure RawBorder where
  left : Option RawBorderSide := none
deriving DecidableEq

/-- `CT_CellAlignment`; `horizontal` and `vertical` hold the `.String()`
rendering of the respective enum attributes. -/
structure RawAlignment where
  horizontal : String := ""
  vertical : String := ""
  wrapText : Option Bool := none
  indent : Option Nat := none
deriving DecidableEq

/-- One `CT_Xf` cell-format record. -/
structure RawXf where
  fontId : Option Nat := none
  fillId : Option Nat := none
  borderId : Option Nat := none
  alignment : Option RawAlignment := none
deriving DecidableEq

/-- The stylesheet's `CellXfs.Xf`, `Fonts.Font`, `Fills.Fill`,
`Borders.Border` tables. -/
structure RawStyleSheet where
  cellXfs : List RawXf := []
  fonts : List RawFont := []
  fills : List RawFill := []
  borders : List RawBorder := []
deriving DecidableEq

/-- `CT_RPrElt`: run properties of a rich-text run.  The presence booleans
model `B ≠ nil` etc. -/
structure RawRunProps where
  rFont : Option String := none
  sz : Option ℚ := none
  color : Option RawColor := none
  b : Bool := false
  i : Bool := false
  strike : Bool := false
  u : Bool := false
  vertAlign : Option String := none
deriving DecidableEq

/-- `CT_RElt`: one rich-text run (`T` plus optional properties). -/
structure RawRElt where
  t : String := ""
  rPr : Option RawRunProps := none
deriving DecidableEq

/-- `sml.CT_Rst`: a rich-text string with runs `R` and optional plain `T`. -/
structure RawRst where
  r : List RawRElt := []
  t : Option String := none
deriving DecidableEq

/-- A raw worksheet cell.  `col` is `Column()`'s result (`none` models the
error case), `sAttr` the optional style id, `value` the formatted value,
`is` the inline rich text, `tIsShared` whether `TAttr == ST_CellTypeS`, and
`v` the raw `V` pointer. -/
structure RawCell where
  col : Option String := none
  sAttr : Option Nat := none
  value : String := ""
  is : Option RawRst := none
  tIsShared : Bool := false
  v : Option String := none
deriving DecidableEq

/-- A raw row: 1-based `RowNumber()`, hidden flag, custom height data and
cells. -/
structure RawRow where
  rowNum : Nat := 1
  hidden : Bool := false
  customHeight : Option Bool := none
  ht : Option ℚ := none
  cells : List RawCell := []
deriving DecidableEq

/-- Per-column metadata as returned by `sheet.Column(c+1)`. -/
structure RawCol where
  customWidth : Option Bool := none
  width : Option ℚ := none
  hidden : Option Bool := none
deriving DecidableEq

/-- A successfully parsed merge range reference (`ParseRangeReference`):
1-based row indices, 0-based column indices, exactly as unioffice returns
them. -/
structure MergeRef where
  fromRow : Nat := 1
  fromCol : Nat := 0
  toRow : Nat := 1
  toCol : Nat := 0
deriving DecidableEq

/-- A raw worksheet.  `merges = none` models `MergeCells == nil`; a `none`
entry inside the list models a reference `ParseRangeReference` rejects
(ignored by the parser). -/
structure RawSheet where
  name : String := ""
  cols : Nat → RawCol := fun _ => {}
  rows : List RawRow := []
  merges : Option (List (Option MergeRef)) := none

/-- The raw workbook: themes, stylesheet, shared strings (`Si` entries, which
are nil-able pointers), and sheets. -/
structure RawWorkbook where
  themes : List (Option RawClrScheme) := []
  styleSheet : RawStyleSheet := {}
  sharedStrings : List (Option RawRst) := []
  sheets : List RawSheet := []

/-! ## Style-table helpers (src/xlsx.go) -/

/-- `GetFontProps`: font record of a style id, `none` when the style id or
the font id is out of bounds or absent. -/
def GetFontProps (ss : RawStyleSheet) (styleID : Nat) : Option RawFont :=
  match ss.cellXfs[styleID]? with
  | none => none
  | some xf =>
      match xf.fontId with
      | none => none
      | some fontIdx => ss.fonts[fontIdx]?

/-- `GetFillProps`: fill record of a style id, guarded like `GetFontProps`. -/
def GetFillProps (ss : RawStyleSheet) (styleID : Nat) : Option RawFill :=
  match ss.cellXfs[styleID]? with
  | none => none
  | some xf =>
      match xf.fillId with
      | none => none
      | some fillIdx => ss.fills[fillIdx]?

/-- `GetBorderProps`: border record of a style id, guarded like
`GetFontProps`. -/
def GetBorderProps (ss : RawStyleSheet) (styleID : Nat) : Option RawBorder :=
  match ss.cellXfs[styleID]? with
  | none => none
  | some xf =>
      match xf.borderId with
      | none => none
      | some borderIdx => ss.borders[borderIdx]?

/-! ## The parser (src/xlsx/parse.go, `ParseWorkbookModel`) -/

/-- `normalizeColor`: strip a leading `#`, and drop the alpha pair of an
8-digit ARGB value. -/
def normalizeColor (hex : String) : String :=
  let h := if hex.startsWith "#" then hex.drop 1 else hex
  if h.length = 8 then h.drop 2 else h

/-- `reference.ColumnToIndex`: base-26 column letters to a 0-based index
(upper-casing applied per character, as `strings.ToUpper` does for the
ASCII letters a column reference holds). -/
def ColumnToIndex (col : String) : Nat :=
  (col.data.foldl (fun acc c => acc * 26 + (c.toUpper.toNat - 64)) 0) - 1

/-- `cellRichTextString`: the inline `Is` if present; otherwise, for a
shared-string cell, the shared-string entry addressed by `V` (with bounds and
parse checks). -/
def cellRichTextString (cell : RawCell) (wb : RawWorkbook) : Option RawRst :=
  match cell.is with
  | some rst => some rst
  | none =>
      if cell.tIsShared then
        match cell.v with
        | none => none
        | some vs =>
            match vs.toInt? with
            | none => none
            | some id =>
                if id < 0 ∨ (wb.sharedStrings.length : Int) ≤ id then none
                else match wb.sharedStrings[id.toNat]? with
                  | some entry => entry
                  | none => none
      else none

/-- Build one `RenderRun` from a raw rich-text run (parse.go lines 408–440).
Theme font colors skip index 1 (Light1, the automatic font color). -/
def buildRun (themes : List (Option RawClrScheme)) (r : RawRElt) : RenderRun :=
  match r.rPr with
  | none => { Text := r.t }
  | some rp =>
      { Text := r.t
        FontFamily := rp.rFont.getD ""
        FontSizePt := rp.sz.getD 0
        FontColor :=
          match rp.color with
          | none => ""
          | some c =>
              match c.rgb with
              | some v => normalizeColor v
              | none =>
                  match c.theme with
                  | none => ""
                  | some themeIdx =>
                      if themeIdx ≠ 1 then
                        let p := ThemeColorToRGB themes (themeIdx : Int)
                        if p.2 then p.1 else ""
                      else ""
        Bold := rp.b
        Italic := rp.i
        Strike := rp.strike
        Underline := rp.u
        VerticalAlign := rp.vertAlign.getD "" }

/-- Style extraction for one cell (parse.go lines 344–390).  The direct
`CellXfs.Xf[styleID]` access of the source is not bounds-checked and faults
for an out-of-range id (see the C10 analysis); here it is modelled as the
partial lookup `cellXfs[styleID]?`. -/
def buildCellStyle (wb : RawWorkbook) (sAttr : Option Nat) : CellStyle :=
  match sAttr with
  | none => {}
  | some styleID =>
      let ss := wb.styleSheet
      let font := GetFontProps ss styleID
      let fill := GetFillProps ss styleID
      let border := GetBorderProps ss styleID
      let xf := ss.cellXfs[styleID]?
      { FontFamily :=
          match font with
          | some f => f.name.headD ""
          | none => ""
        FontSizePt :=
          match font with
          | some f => f.sz.headD 0
          | none => 0
        FontColor :=
          match font with
          | some f =>
              match f.color.head? with
              | some c =>
                  match c.rgb with
                  | some v => normalizeColor v
                  | none => ""
              | none => ""
          | none => ""
        BackgroundColor :=
          match fill with
          | some fl =>
              match fl.patternFill with
              | some pf =>
                  match pf.fgColor with
                  | some fg =>
                      match fg.rgb with
                      | some v => normalizeColor v
                      | none =>
                          match fg.theme with
                          | some themeIdx =>
                              let p := ThemeColorToRGB wb.themes (themeIdx : Int)
                              if p.2 then p.1 else ""
                          | none => ""
                  | none => ""
              | none => ""
          | none => ""
        BorderColor :=
          match border with
          | some bd =>
              match bd.left with
              | some side =>
                  match side.color with
                  | some c =>
                      match c.rgb with
                      | some v => normalizeColor v
                      | none => ""
                  | none => ""
              | none => ""
          | none => ""
        HorizontalAlign :=
          match xf with
          | some x =>
              match x.alignment with
              | some al => al.horizontal
              | none => ""
          | none => ""
        VerticalAlign :=
          match xf with
          | some x =>
              match x.alignment with
              | some al =>
                  match al.vertical with
                  | "top" => "top"
                  | "center" => "middle"
                  | _ => "bottom"
              | none => ""
          | none => ""
        WrapText :=
          match xf with
          | some x =>
              match x.alignment with
              | some al => al.wrapText.getD false
              | none => false
          | none => false
        IndentPx :=
          match xf with
          | some x =>
              match x.alignment with
              | some al =>
                  match al.indent with
                  | some n => (n : ℚ) * 8
                  | none => 0
              | none => 0
          | none => 0 }

/-- The successfully parsed merge declarations of a sheet, in declaration
order (malformed references and a missing `MergeCells` give the empty
contribution). -/
def mergeList (s : RawSheet) : List MergeRef :=
  (s.merges.getD []).filterMap id

/-- `mergeMaster` lookup: the span stored for `(rowIdx, colIdx)`, where a
later declaration with the same master overwrites an earlier one (Go map
insertion semantics).  Spans are `(rowSpan, colSpan)` computed from the
0-based corners. -/
def mergeSpanAt (s : RawSheet) (rowIdx colIdx : Nat) : Option (Nat × Nat) :=
  (mergeList s).foldl
    (fun acc m =>
      if m.fromRow - 1 = rowIdx ∧ m.fromCol = colIdx then
        some (m.toRow - 1 - (m.fromRow - 1) + 1, m.toCol - m.fromCol + 1)
      else acc)
    none

/-- `skipCells` membership: the position is covered by some merge rectangle
and is not that rectangle's master. -/
def skipCell (s : RawSheet) (r c : Nat) : Bool :=
  (mergeList s).any fun m =>
    let fr := m.fromRow - 1
    let tr := m.toRow - 1
    (decide (fr ≤ r) && decide (r ≤ tr) &&
      decide (m.fromCol ≤ c) && decide (c ≤ m.toCol)) &&
      !(decide (r = fr) && decide (c = m.fromCol))

/-- Maximum cell count observed over all rows of a sheet — the sheet's
column count. -/
def maxColsOf (s : RawSheet) : Nat :=
  s.rows.foldl (fun acc row => max acc row.cells.length) 0

/-- Per-column pixel widths (custom width × 8.3, else the 8.43-character
default approximation). -/
def colWidthsOf (s : RawSheet) : List ℚ :=
  (List.range (maxColsOf s)).map fun c =>
    let colObj := s.cols (c + 1)
    if colObj.customWidth = some true then colObj.width.getD 0 * (83 / 10)
    else (843 / 100) * (83 / 10)

/-- Per-column hidden flags. -/
def colHiddenOf (s : RawSheet) : List Bool :=
  (List.range (maxColsOf s)).map fun c => (s.cols (c + 1)).hidden.getD false

/-- Build the `RenderCell` for one raw cell (parse.go lines 392–453):
formatted value, resolved style, rich-text runs when
`cellRichTextString` yields a non-empty run list, and merge spans when the
position is a merge master. -/
def buildCell (wb : RawWorkbook) (s : RawSheet) (rowIdx : Nat)
    (colName : String) (cell : RawCell) : RenderCell :=
  let colIdx := ColumnToIndex colName
  let base : RenderCell :=
    { Ref := colName ++ toString (rowIdx + 1)
      Value := cell.value
      Runs :=
        match cellRichTextString cell wb with
        | some rt =>
            if rt.r.length > 0 then rt.r.map (buildRun wb.themes) else []
        | none => []
      ColSpan := 1
      RowSpan := 1
      Style := buildCellStyle wb cell.sAttr }
  match mergeSpanAt s rowIdx colIdx with
  | some spans => { base with RowSpan := spans.1, ColSpan := spans.2 }
  | none => base

/-- Build one `RenderRow` from a raw row: resolved height (custom height ×
1.333, else the 15 pt default), hidden flag, and a `maxCols`-slot cell list
filled by column index.  Cells whose position is merge-covered are skipped.
The source's `rr.Cells[colIdx] = rc` write is not bounds-checked and faults
when `colIdx ≥ maxCols` (see the C9 analysis); `List.set` models it as a
dropped write. -/
def renderRowOf (wb : RawWorkbook) (s : RawSheet) (maxCols : Nat)
    (raw : RawRow) : RenderRow :=
  let rowIdx := raw.rowNum - 1
  { HeightPx :=
      if raw.customHeight = some true then raw.ht.getD 0 * (1333 / 1000)
      else 15 * (1333 / 1000)
    Hidden := raw.hidden
    Cells :=
      raw.cells.foldl
        (fun cells cell =>
          match cell.col with
          | none => cells
          | some colName =>
              let colIdx := ColumnToIndex colName
              if skipCell s rowIdx colIdx then cells
              else cells.set colIdx (some (buildCell wb s rowIdx colName cell)))
        (List.replicate maxCols none) }

/-- The zero `RenderRow` a slice growth materializes for a gap row: zero
height, not hidden, no cell slots. -/
def zeroRenderRow : RenderRow := {}

/-- One step of the row loop: grow the row slice to cover `rowNum - 1`
(filling with zero rows), then overwrite that slot with the rendered row.
`R` is the row renderer applied by the loop body (`renderRowOf` with the
sheet's context fixed). -/
def buildRowsStep (R : RawRow → RenderRow) (rows : List RenderRow)
    (raw : RawRow) : List RenderRow :=
  let i := raw.rowNum - 1
  let grown :=
    if rows.length ≤ i then
      rows ++ List.replicate (i + 1 - rows.length) zeroRenderRow
    else rows
  grown.set i (R raw)

/-- The row-building loop over a physical row list in arrival order. -/
def buildRowsWith (R : RawRow → RenderRow) (raws : List RawRow) :
    List RenderRow :=
  raws.foldl (buildRowsStep R) []

/-- The row-building loop of `ParseWorkbookModel`, over physical rows in
arrival order. -/
def buildRows (wb : RawWorkbook) (s : RawSheet) : List RenderRow :=
  buildRowsWith (renderRowOf wb s (maxColsOf s)) s.rows

/-- Parse one sheet into its IR. -/
def parseSheet (wb : RawWorkbook) (s : RawSheet) : RenderSheet :=
  { Name := s.name
    ColWidths := colWidthsOf s
    ColHidden := colHiddenOf s
    Rows := buildRows wb s }

/-- `ParseWorkbookModel` on an already-read workbook object graph (the
fatal unreadable-document error path is outside this model). -/
def ParseWorkbookModel (wb : RawWorkbook) : WorkbookModel :=
  { Sheets := wb.sheets.map (parseSheet wb) }

/-! ## HTML renderer fragments (`RenderWorkbookHTML`)

Only the parts the claims speak about are embedded: which `<td>` elements a
row emits, and how a cell's inner HTML is chosen between rich runs and the
plain value. -/

/-- One emitted `<td>` of a row: the blank placeholder written for a `nil`
cell slot, or a real cell with its attributes. -/
inductive TdEmit where
  | blank (col : Nat)
  | cell (col : Nat) (c : RenderCell)
deriving DecidableEq

/-- The renderer's cell loop from column `colIdx` on: a `nil` slot emits a
blank `<td>` and advances by one; a cell emits its `<td>` and additionally
skips `ColSpan - 1` following columns when `ColSpan > 1`.  The loop advances
by at least one column per iteration, so `fuel = cells.length` iterations
always suffice and the fuelled recursion computes exactly the loop. -/
def renderRowTdsFrom (cells : List (Option RenderCell)) :
    Nat → Nat → List TdEmit
  | 0, _ => []
  | fuel + 1, colIdx =>
    if h : colIdx < cells.length then
      match cells.get ⟨colIdx, h⟩ with
      | none => TdEmit.blank colIdx :: renderRowTdsFrom cells fuel (colIdx + 1)
      | some c =>
          let skip := if c.ColSpan > 1 then c.ColSpan - 1 else 0
          TdEmit.cell colIdx c ::
            renderRowTdsFrom cells fuel (colIdx + 1 + skip)
    else []

/-- All `<td>` elements emitted for one IR row, in order. -/
def renderRowTds (row : RenderRow) : List TdEmit :=
  renderRowTdsFrom row.Cells row.Cells.length 0

/-- The apostrophe character, spelled via its code point. -/
def sq : String := String.mk [Char.ofNat 39]

/-- `html.EscapeString` on one character: escapes the five special
characters `&` `'` `<` `>` `"` (codes 38, 39, 60, 62, 34). -/
def escapeHTMLChar (c : Char) : String :=
  if c = Char.ofNat 38 then "&amp;"
  else if c = Char.ofNat 39 then "&#39;"
  else if c = Char.ofNat 60 then "&lt;"
  else if c = Char.ofNat 62 then "&gt;"
  else if c = Char.ofNat 34 then "&#34;"
  else String.mk [c]

/-- `html.EscapeString`. -/
def escapeHTMLString (s : String) : String :=
  s.data.foldl (fun acc c => acc ++ escapeHTMLChar c) ""

/-- `strings.ReplaceAll(s, "\n", "<br>")` (the pattern is a single
character, so replacement is per character). -/
def newlineToBr (s : String) : String :=
  s.data.foldl
    (fun acc c => acc ++ if c = Char.ofNat 10 then "<br>" else String.mk [c]) ""

/-- Decimal rendering of Go's `%.1f` on the exact rational (Go rounds the
nearest float; the difference is immaterial to every theorem below, which
never inspects these digits). -/
def fmtPt1 (q : ℚ) : String :=
  let n : ℤ := round (q * 10)
  toString (n / 10) ++ "." ++ toString (n % 10)

/-- Decimal rendering of Go's `%.0f`. -/
def fmtPx0 (q : ℚ) : String :=
  toString (round q : ℤ)

/-- `runToInlineCSS`: the inline style string of a rich-text run. -/
def runToInlineCSS (r : RenderRun) : String :=
  (if r.FontFamily ≠ "" then
      "font-family:" ++ sq ++ sanitizeFontFamily r.FontFamily ++ sq ++ ";"
    else "") ++
  (if r.FontSizePt > 0 then "font-size:" ++ fmtPt1 r.FontSizePt ++ "pt;"
    else "") ++
  (if r.FontColor ≠ "" ∧ sanitizeColor r.FontColor ≠ "" then
      "color:#" ++ sanitizeColor r.FontColor ++ ";"
    else "") ++
  (if r.Bold then "font-weight:bold;" else "") ++
  (if r.Italic then "font-style:italic;" else "") ++
  (if r.Underline ∧ r.Strike then "text-decoration:underline line-through;"
    else if r.Underline then "text-decoration:underline;"
    else if r.Strike then "text-decoration:line-through;"
    else "") ++
  (if r.VerticalAlign = "superscript" then "vertical-align:super;"
    else if r.VerticalAlign = "subscript" then "vertical-align:sub;"
    else "")

/-- The `<span>` emitted for one run.  `fmtRun` abstracts the Go
`fmt.Sprintf` rendering of the run used by the debug attribute. -/
def runSpanHTML (fmtRun : RenderRun → String) (debug : Bool)
    (run : RenderRun) : String :=
  let text := newlineToBr (escapeHTMLString run.Text)
  let style := runToInlineCSS run
  let runDebugAttr :=
    if debug then
      " data-run-style=\"" ++ escapeHTMLString (fmtRun run) ++ "\""
    else ""
  if style ≠ "" then
    "<span style=\"" ++ style ++ "\"" ++ runDebugAttr ++ ">" ++ text ++
      "</span>"
  else "<span" ++ runDebugAttr ++ ">" ++ text ++ "</span>"

/-- The inner HTML of a cell (renderer lines 290–313): the concatenated run
spans when `Runs` is non-empty, the escaped `Value` otherwise. -/
def cellInnerHTML (fmtRun : RenderRun → String) (debug : Bool)
    (cell : RenderCell) : String :=
  if cell.Runs.length > 0 then
    cell.Runs.foldl (fun acc run => acc ++ runSpanHTML fmtRun debug run) ""
  else newlineToBr (escapeHTMLString cell.Value)

/-! ## The style deduplicator (`RenderWorkbookHTML`, phases 1, 2 and 4)

The Go code tallies property values in maps and then scans each map with
`mostCommon*`; since Go map iteration order is unspecified, the scan order is
an explicit parameter here.  An *admissible* key order is any duplicate-free
enumeration of exactly the keys with a positive tally — precisely the key
sets the Go maps hold. -/

/-- The styles of all present (non-`nil`) cells, in traversal order — the
population the deduplicator counts over (`styledCells` counts every one of
them, styled or not). -/
def styledStyles (m : WorkbookModel) : List CellStyle :=
  (m.Sheets.flatMap fun sheet =>
      sheet.Rows.flatMap fun row => row.Cells.filterMap id).map
    RenderCell.Style

/-- `styledCells`: the number of present cells. -/
def styledCellCount (m : WorkbookModel) : Nat := (styledStyles m).length

/-- `fontFamilyCount[v]`: cells with non-empty font family `v`. -/
def tallyFontFamily (m : WorkbookModel) (v : String) : Nat :=
  (styledStyles m).countP fun st => decide (st.FontFamily = v ∧ v ≠ "")

/-- `fontSizeCount[q]`: cells with positive font size `q`. -/
def tallyFontSize (m : WorkbookModel) (q : ℚ) : Nat :=
  (styledStyles m).countP fun st => decide (st.FontSizePt = q ∧ 0 < q)

/-- `borderColorCount[v]`. -/
def tallyBorderColor (m : WorkbookModel) (v : String) : Nat :=
  (styledStyles m).countP fun st => decide (st.BorderColor = v ∧ v ≠ "")

/-- `hAlignCount[v]`. -/
def tallyHAlign (m : WorkbookModel) (v : String) : Nat :=
  (styledStyles m).countP fun st => decide (st.HorizontalAlign = v ∧ v ≠ "")

/-- `vAlignCount[v]`. -/
def tallyVAlign (m : WorkbookModel) (v : String) : Nat :=
  (styledStyles m).countP fun st => decide (st.VerticalAlign = v ∧ v ≠ "")

/-- `fontColorCount[v]`. -/
def tallyFontColor (m : WorkbookModel) (v : String) : Nat :=
  (styledStyles m).countP fun st => decide (st.FontColor = v ∧ v ≠ "")

/-- `bgColorCount[v]`. -/
def tallyBgColor (m : WorkbookModel) (v : String) : Nat :=
  (styledStyles m).countP fun st => decide (st.BackgroundColor = v ∧ v ≠ "")

/-- `wrapTextCount[b]`: counted for every present cell, unconditionally. -/
def tallyWrapText (m : WorkbookModel) (b : Bool) : Nat :=
  (styledStyles m).countP fun st => decide (st.WrapText = b)

/-- The loop body of the `mostCommon*` helpers: replace the best seen so far
when the key's count strictly exceeds it. -/
def mcStep {α : Type} (count : α → Nat) (acc : α × Nat) (k : α) : α × Nat :=
  if count k > acc.2 then (k, count k) else acc

/-- The `mostCommon*` helpers: fold over the map's keys, keeping the first
key whose count strictly exceeds the best seen so far (initial value: the
type's zero value with count 0). -/
def mostCommon {α : Type} (count : α → Nat) (init : α) (keys : List α) :
    α × Nat :=
  keys.foldl (mcStep count) (init, 0)

/-- A majority-gated default (phase 2): the most common value, reset to
`unset` when its count is at most `styledCells / 2` (integer division). -/
def gatedDefault {α : Type} (count : α → Nat) (unset : α) (keys : List α)
    (n : Nat) : α :=
  let r := mostCommon count unset keys
  if r.2 ≤ n / 2 then unset else r.1

/-- An admissible iteration order for a Go map with counts `count`: a
duplicate-free list of exactly the keys with positive count.  `support` is
any list through which every positive-count key factors, making the predicate
decidable; the tally lemmas below discharge the factoring. -/
abbrev IsKeyOrder {α : Type} [DecidableEq α] (count : α → Nat)
    (support : List α) (keys : List α) : Prop :=
  keys.Nodup ∧ (∀ k ∈ keys, 0 < count k) ∧
    ∀ v ∈ support, 0 < count v → v ∈ keys

/-- The iteration orders of the eight count maps. -/
structure KeyOrders where
  ff : List String := []
  fs : List ℚ := []
  bc : List String := []
  ha : List String := []
  va : List String := []
  fc : List String := []
  bg : List String := []
  wt : List Bool := []

/-- Key orders matching the actual key sets of the count maps built from
`m`. -/
abbrev Admissible (m : WorkbookModel) (o : KeyOrders) : Prop :=
  IsKeyOrder (tallyFontFamily m) ((styledStyles m).map CellStyle.FontFamily) o.ff ∧
  IsKeyOrder (tallyFontSize m) ((styledStyles m).map CellStyle.FontSizePt) o.fs ∧
  IsKeyOrder (tallyBorderColor m) ((styledStyles m).map CellStyle.BorderColor) o.bc ∧
  IsKeyOrder (tallyHAlign m) ((styledStyles m).map CellStyle.HorizontalAlign) o.ha ∧
  IsKeyOrder (tallyVAlign m) ((styledStyles m).map CellStyle.VerticalAlign) o.va ∧
  IsKeyOrder (tallyFontColor m) ((styledStyles m).map CellStyle.FontColor) o.fc ∧
  IsKeyOrder (tallyBgColor m) ((styledStyles m).map CellStyle.BackgroundColor) o.bg ∧
  IsKeyOrder (tallyWrapText m) ((styledStyles m).map CellStyle.WrapText) o.wt

set_option synthInstance.maxHeartbeats 1000000 in
set_option synthInstance.maxSize 2048 in
instance instDecidableAdmissible (m : WorkbookModel) (o : KeyOrders) :
    Decidable (Admissible m o) := inferInstance

/-- The computed document-wide defaults (phase 2).  Seven properties are
majority-gated; the wrap-text default is the bare most common value, and the
indent default is fixed at `0.0`. -/
structure StyleDefaults where
  fontFamily : String := ""
  fontSize : ℚ := 0
  borderColor : String := ""
  hAlign : String := ""
  vAlign : String := ""
  fontColor : String := ""
  bgColor : String := ""
  wrapText : Bool := false
  indentPx : ℚ := 0
deriving DecidableEq

/-- Phase 2 of `RenderWorkbookHTML`, relative to the given map iteration
orders. -/
def computeDefaults (m : WorkbookModel) (o : KeyOrders) : StyleDefaults :=
  let n := styledCellCount m
  { fontFamily := gatedDefault (tallyFontFamily m) "" o.ff n
    fontSize := gatedDefault (tallyFontSize m) 0 o.fs n
    borderColor := gatedDefault (tallyBorderColor m) "" o.bc n
    hAlign := gatedDefault (tallyHAlign m) "" o.ha n
    vAlign := gatedDefault (tallyVAlign m) "" o.va n
    fontColor := gatedDefault (tallyFontColor m) "" o.fc n
    bgColor := gatedDefault (tallyBgColor m) "" o.bg n
    wrapText := (mostCommon (tallyWrapText m) false o.wt).1
    indentPx := 0 }

/-- First-seen deduplication, as the renderer builds `styleList` (append a
style when the `styleMap` does not hold it yet). -/
def dedupFirst {α : Type} [DecidableEq α] (l : List α) : List α :=
  l.foldl (fun acc x => if x ∈ acc then acc else acc ++ [x]) []

/-- `styleList`: the distinct cell styles in first-seen order; the class
`cellstyle(i+1)` is attached to the style at position `i`. -/
def styleClasses (m : WorkbookModel) : List CellStyle :=
  dedupFirst (styledStyles m)

/-! ## `styleToCSSDiff` (phase 4) and reconstruction

`styleToCSSDiff` is embedded at declaration granularity: each field of
`CSSDiff` is `some v` exactly when the source writes the corresponding CSS
declaration, with the value it writes (sanitized and keyword-mapped exactly
as in the source); the concatenation into one string is not re-modelled. -/

/-- The emitted CSS declarations of one class. -/
structure CSSDiff where
  fontFamily : Option String := none
  fontSize : Option ℚ := none
  fontColor : Option String := none
  backgroundColor : Option String := none
  borderColor : Option String := none
  textAlign : Option String := none
  verticalAlign : Option String := none
  whiteSpaceWrap : Option Bool := none
  paddingPx : Option ℚ := none
deriving DecidableEq

/-- The `switch s.HorizontalAlign` keyword mapping of the renderer. -/
def cssTextAlign (v : String) : String :=
  match v with
  | "center" => "center"
  | "centerContinuous" => "center"
  | "distributed" => "center"
  | "right" => "right"
  | "justify" => "justify"
  | _ => "left"

/-- The vertical-align keyword mapping of the renderer. -/
def cssVerticalAlign (v : String) : String :=
  if v = "top" then "top" else if v = "middle" then "middle" else "bottom"

/-- `styleToCSSDiff`: the declarations of `s` that are set and differ from
the defaults (colors additionally pass `sanitizeColor`; the font family is
emitted through `sanitizeFontFamily`). -/
def styleToCSSDiff (s : CellStyle) (d : StyleDefaults) : CSSDiff :=
  { fontFamily :=
      if s.FontFamily ≠ "" ∧ s.FontFamily ≠ d.fontFamily then
        some (sanitizeFontFamily s.FontFamily)
      else none
    fontSize :=
      if 0 < s.FontSizePt ∧ s.FontSizePt ≠ d.fontSize then some s.FontSizePt
      else none
    fontColor :=
      if s.FontColor ≠ "" ∧ s.FontColor ≠ d.fontColor ∧
          sanitizeColor s.FontColor ≠ "" then
        some (sanitizeColor s.FontColor)
      else none
    backgroundColor :=
      if s.BackgroundColor ≠ "" ∧ s.BackgroundColor ≠ d.bgColor ∧
          sanitizeColor s.BackgroundColor ≠ "" then
        some (sanitizeColor s.BackgroundColor)
      else none
    borderColor :=
      if s.BorderColor ≠ "" ∧ s.BorderColor ≠ d.borderColor ∧
          sanitizeColor s.BorderColor ≠ "" then
        some (sanitizeColor s.BorderColor)
      else none
    textAlign :=
      if s.HorizontalAlign ≠ "" ∧ s.HorizontalAlign ≠ d.hAlign then
        some (cssTextAlign s.HorizontalAlign)
      else none
    verticalAlign :=
      if s.VerticalAlign ≠ "" ∧ s.VerticalAlign ≠ d.vAlign then
        some (cssVerticalAlign s.VerticalAlign)
      else none
    whiteSpaceWrap := if s.WrapText ≠ d.wrapText then some s.WrapText else none
    paddingPx :=
      if 0 < s.IndentPx ∧ s.IndentPx ≠ d.indentPx then some s.IndentPx
      else none }

/-- Claim C1's reconstruction: the effective style of a cell from the
document defaults overridden by the declarations of the cell's class. -/
def reconstructStyle (d : StyleDefaults) (c : CSSDiff) : CellStyle :=
  { FontFamily := c.fontFamily.getD d.fontFamily
    FontSizePt := c.fontSize.getD d.fontSize
    FontColor := c.fontColor.getD d.fontColor
    BackgroundColor := c.backgroundColor.getD d.bgColor
    BorderColor := c.borderColor.getD d.borderColor
    HorizontalAlign := c.textAlign.getD d.hAlign
    VerticalAlign := c.verticalAlign.getD d.vAlign
    WrapText := c.whiteSpaceWrap.getD d.wrapText
    IndentPx := c.paddingPx.getD d.indentPx }

/-- Filling each unset property of a record with the document default —
what reconstruction actually yields (theorem `c1_roundtrip_amended`). -/
def overrideDefaults (d : StyleDefaults) (s : CellStyle) : CellStyle :=
  { FontFamily := if s.FontFamily = "" then d.fontFamily else s.FontFamily
    FontSizePt := if s.FontSizePt = 0 then d.fontSize else s.FontSizePt
    FontColor := if s.FontColor = "" then d.fontColor else s.FontColor
    BackgroundColor :=
      if s.BackgroundColor = "" then d.bgColor else s.BackgroundColor
    BorderColor := if s.BorderColor = "" then d.borderColor else s.BorderColor
    HorizontalAlign :=
      if s.HorizontalAlign = "" then d.hAlign else s.HorizontalAlign
    VerticalAlign := if s.VerticalAlign = "" then d.vAlign else s.VerticalAlign
    WrapText := s.WrapText
    IndentPx := if s.IndentPx = 0 then d.indentPx else s.IndentPx }

/-- A record whose string values pass the renderer's serialization
unchanged: the font family is already safe, colors are empty or valid hex,
alignments use the canonical spellings, and the numeric fields are
non-negative (as the parser always produces them). -/
abbrev CleanStyle (s : CellStyle) : Prop :=
  sanitizeFontFamily s.FontFamily = s.FontFamily ∧
  (s.FontColor = "" ∨ hexColorMatch s.FontColor = true) ∧
  (s.BackgroundColor = "" ∨ hexColorMatch s.BackgroundColor = true) ∧
  (s.BorderColor = "" ∨ hexColorMatch s.BorderColor = true) ∧
  s.HorizontalAlign ∈ ["", "left", "center", "right", "justify"] ∧
  s.VerticalAlign ∈ ["", "top", "middle", "bottom"] ∧
  0 ≤ s.FontSizePt ∧ 0 ≤ s.IndentPx

/-- No property of `s` is unset while a non-empty default exists — the
condition under which reconstruction is exact. -/
abbrev NoUnsetWithDefault (d : StyleDefaults) (s : CellStyle) : Prop :=
  (s.FontFamily ≠ "" ∨ d.fontFamily = "") ∧
  (s.FontSizePt ≠ 0 ∨ d.fontSize = 0) ∧
  (s.FontColor ≠ "" ∨ d.fontColor = "") ∧
  (s.BackgroundColor ≠ "" ∨ d.bgColor = "") ∧
  (s.BorderColor ≠ "" ∨ d.borderColor = "") ∧
  (s.HorizontalAlign ≠ "" ∨ d.hAlign = "") ∧
  (s.VerticalAlign ≠ "" ∨ d.vAlign = "") ∧
  (s.IndentPx ≠ 0 ∨ d.indentPx = 0)

/-! ## Claim C3's rule, modelled from the spec's words for comparison -/

/-- Modelled from the spec: a *styled* cell is one with at least one
non-default property. -/
def specIsStyledCell (s : CellStyle) : Bool := decide (s ≠ {})

/-- Modelled from the spec: the styled-cell count (denominator of the
claimed majority rule). -/
def specStyledCount (m : WorkbookModel) : Nat :=
  (styledStyles m).countP specIsStyledCell

/-- Modelled from the spec: occurrences of font family `v` across the
styled cells. -/
def specTallyFontFamily (m : WorkbookModel) (v : String) : Nat :=
  ((styledStyles m).filter specIsStyledCell).countP fun s =>
    decide (s.FontFamily = v)

/-- Modelled from the spec: `v` becomes the document-wide font-family
default iff its count strictly exceeds half the styled-cell count. -/
abbrev specAdoptsFontFamily (m : WorkbookModel) (v : String) : Prop :=
  specStyledCount m < 2 * specTallyFontFamily m v

/-! ## General lemmas about the deduplicator's folds -/

section FoldLemmas

variable {α : Type} (count : α → Nat)

/-- The tracked best count never decreases along the fold. -/
lemma foldl_mcStep_le (keys : List α) (acc : α × Nat) :
    acc.2 ≤ (keys.foldl (mcStep count) acc).2 := by
  induction keys generalizing acc with
  | nil => simp
  | cons k ks ih =>
    refine le_trans ?_ (ih (mcStep count acc k))
    by_cases h : count k > acc.2 <;> simp [mcStep, h]
    omega

/-- Every key's count is dominated by the final best count. -/
lemma foldl_mcStep_bound (keys : List α) (acc : α × Nat) :
    ∀ k ∈ keys, count k ≤ (keys.foldl (mcStep count) acc).2 := by
  induction keys generalizing acc with
  | nil => simp
  | cons j js ih =>
    intro k hk
    rcases List.mem_cons.mp hk with rfl | hk
    · refine le_trans ?_ (foldl_mcStep_le count js (mcStep count acc k))
      by_cases h : count k > acc.2 <;> simp [mcStep, h]
      omega
    · exact ih (mcStep count acc j) k hk

/-- The fold either keeps the accumulator or returns some key with its
count. -/
lemma foldl_mcStep_achieve (keys : List α) (acc : α × Nat) :
    keys.foldl (mcStep count) acc = acc ∨
      ∃ k ∈ keys, keys.foldl (mcStep count) acc = (k, count k) := by
  induction keys generalizing acc with
  | nil => left; rfl
  | cons j js ih =>
    simp only [List.foldl_cons]
    by_cases h : count j > acc.2
    · right
      have hstep : mcStep count acc j = (j, count j) := by simp [mcStep, h]
      rcases ih (mcStep count acc j) with heq | ⟨k, hk, heq⟩
      · refine ⟨j, List.mem_cons_self j js, ?_⟩
        rw [heq, hstep]
      · exact ⟨k, List.mem_cons_of_mem j hk, heq⟩
    · rcases ih (mcStep count acc j) with heq | ⟨k, hk, heq⟩
      · left; simpa [mcStep, h] using heq
      · exact Or.inr ⟨k, List.mem_cons_of_mem j hk, heq⟩

/-- If no key can beat the accumulator, the fold keeps it. -/
lemma foldl_mcStep_stay (keys : List α) (acc : α × Nat)
    (h : ∀ k ∈ keys, count k ≤ acc.2) :
    keys.foldl (mcStep count) acc = acc := by
  induction keys with
  | nil => rfl
  | cons j js ih =>
    have hj : ¬ count j > acc.2 := by
      have := h j (List.mem_cons_self j js)
      omega
    simp only [List.foldl_cons, mcStep, hj, if_false]
    exact ih fun k hk => h k (List.mem_cons_of_mem j hk)

/-- With a strict unique maximum `v` among the keys that also beats the
accumulator, the fold returns `(v, count v)`. -/
lemma foldl_mcStep_majority (keys : List α) :
    ∀ (acc : α × Nat) (v : α), v ∈ keys →
      (∀ k ∈ keys, k ≠ v → count k < count v) → acc.2 < count v →
      keys.foldl (mcStep count) acc = (v, count v) := by
  induction keys with
  | nil => intro acc v hv _ _; cases hv
  | cons j js ih =>
    intro acc v hv hmax hacc
    simp only [List.foldl_cons]
    by_cases hjv : j = v
    · subst hjv
      have hstep : mcStep count acc j = (j, count j) := by
        simp [mcStep, hacc]
      rw [hstep]
      exact foldl_mcStep_stay count js (j, count j) fun k hk => by
        by_cases hkj : k = j
        · subst hkj; exact le_refl _
        · exact le_of_lt (hmax k (List.mem_cons_of_mem j hk) hkj)
    · have hv' : v ∈ js := by
        rcases List.mem_cons.mp hv with h | h
        · exact absurd h.symm hjv
        · exact h
      have hacc' : (mcStep count acc j).2 < count v := by
        have hjlt : count j < count v := hmax j (List.mem_cons_self j js) hjv
        by_cases h : count j > acc.2 <;> simp [mcStep, h] <;> omega
      exact ih (mcStep count acc j) v hv'
        (fun k hk hkv => hmax k (List.mem_cons_of_mem j hk) hkv) hacc'

/-- Characterization of a majority-gated default at a non-unset value `v`:
it equals `v` iff `v`'s count strictly exceeds `n / 2`. -/
lemma gatedDefault_eq_iff [DecidableEq α] (unset : α) (keys : List α)
    (n : Nat) (v : α) (hne : v ≠ unset)
    (hcomplete : ∀ w, 0 < count w → w ∈ keys)
    (hsum : ∀ k, k ≠ v → count k + count v ≤ n) :
    gatedDefault count unset keys n = v ↔ n / 2 < count v := by
  constructor
  · intro h
    by_contra hle
    push_neg at hle
    unfold gatedDefault mostCommon at h
    rcases foldl_mcStep_achieve count keys (unset, 0) with heq | ⟨k, hk, heq⟩
    · rw [heq] at h
      simp only at h
      have : (0 : Nat) ≤ n / 2 := Nat.zero_le _
      rw [if_pos this] at h
      exact hne h.symm
    · rw [heq] at h
      simp only at h
      by_cases hgate : count k ≤ n / 2
      · rw [if_pos hgate] at h
        exact hne h.symm
      · rw [if_neg hgate] at h
        subst h
        omega
  · intro h
    have hpos : 0 < count v := by omega
    have hvmem : v ∈ keys := hcomplete v hpos
    have hmax : ∀ k ∈ keys, k ≠ v → count k < count v := by
      intro k _ hkv
      have := hsum k hkv
      by_contra hge
      push_neg at hge
      have h2 : 2 * count v ≤ n := by omega
      have : count v ≤ n / 2 := by omega
      omega
    unfold gatedDefault mostCommon
    rw [foldl_mcStep_majority count keys (unset, 0) v hvmem hmax hpos]
    simp only
    rw [if_neg (by omega)]

/-- A majority-gated default does not depend on the map iteration order. -/
lemma gatedDefault_order_indep [DecidableEq α] (unset : α)
    (keys1 keys2 : List α) (n : Nat)
    (h1 : ∀ w, 0 < count w → w ∈ keys1)
    (h2 : ∀ w, 0 < count w → w ∈ keys2)
    (hunset : count unset = 0)
    (hsum : ∀ k j, k ≠ j → count k + count j ≤ n) :
    gatedDefault count unset keys1 n = gatedDefault count unset keys2 n := by
  by_cases hmaj : ∃ v, n / 2 < count v
  · obtain ⟨v, hv⟩ := hmaj
    have hne : v ≠ unset := by
      intro h
      rw [h, hunset] at hv
      omega
    rw [(gatedDefault_eq_iff count unset keys1 n v hne h1
          fun k hk => hsum k v hk).mpr hv,
        (gatedDefault_eq_iff count unset keys2 n v hne h2
          fun k hk => hsum k v hk).mpr hv]
  · push_neg at hmaj
    have hgate : ∀ keys : List α,
        gatedDefault count unset keys n = unset := by
      intro keys
      unfold gatedDefault mostCommon
      rcases foldl_mcStep_achieve count keys (unset, 0) with heq | ⟨k, _, heq⟩
      · rw [heq]
        simp [Nat.zero_le]
      · rw [heq]
        simp only
        rw [if_pos (by have := hmaj k; omega)]
    rw [hgate keys1, hgate keys2]

/-- The value `mostCommon` returns dominates every count, provided the key
list is complete and the initial value has count zero. -/
lemma mostCommon_fst_max [DecidableEq α] (init : α) (keys : List α)
    (hcomplete : ∀ w, 0 < count w → w ∈ keys) :
    ∀ b, count b ≤ count (mostCommon count init keys).1 := by
  intro b
  unfold mostCommon
  rcases Nat.eq_zero_or_pos (count b) with hb | hb
  · omega
  have hbmem : b ∈ keys := hcomplete b hb
  have hbound := foldl_mcStep_bound count keys (init, 0) b hbmem
  rcases foldl_mcStep_achieve count keys (init, 0) with heq | ⟨k, _, heq⟩
  · rw [heq]
    rw [heq] at hbound
    simp only at hbound ⊢
    omega
  · rw [heq]
    rw [heq] at hbound
    simpa using hbound

end FoldLemmas

section CountLemmas

variable {α β : Type}

/-- Two mutually exclusive predicates count at most the list's length in
total. -/
lemma countP_exclusive_sum_le (l : List α) (p q : α → Bool)
    (hpq : ∀ a, p a = true → q a = true → False) :
    l.countP p + l.countP q ≤ l.length := by
  induction l with
  | nil => simp
  | cons a l ih =>
    simp only [List.countP_cons, List.length_cons]
    by_cases hp : p a = true
    · have hq : ¬ q a = true := fun hq => hpq a hp hq
      simp [hp, hq]
      omega
    · by_cases hq : q a = true <;> simp [hp, hq] <;> omega

/-- A positive count of a value-selecting predicate puts the value in the
image list. -/
lemma countP_pos_mem_map (l : List α) (p : α → Bool) (f : α → β) (v : β)
    (hp : ∀ a, p a = true → f a = v) (h : 0 < l.countP p) : v ∈ l.map f := by
  obtain ⟨a, ha, hpa⟩ := List.countP_pos_iff.mp h
  exact hp a hpa ▸ List.mem_map_of_mem f ha

end CountLemmas

section DedupLemmas

variable {α : Type} [DecidableEq α]

/-- The loop body of `dedupFirst`. -/
lemma dedupFirst_foldl_nodup (l : List α) (acc : List α) (hacc : acc.Nodup) :
    (l.foldl (fun acc x => if x ∈ acc then acc else acc ++ [x]) acc).Nodup := by
  induction l generalizing acc with
  | nil => exact hacc
  | cons x xs ih =>
    simp only [List.foldl_cons]
    by_cases hx : x ∈ acc
    · simpa [hx] using ih acc hacc
    · have : (acc ++ [x]).Nodup := by
        simp [List.nodup_append, hacc, hx]
      simpa [hx] using ih (acc ++ [x]) this

/-- Membership in the fold is membership in the accumulator or the input. -/
lemma dedupFirst_foldl_mem (l : List α) (acc : List α) (y : α) :
    y ∈ l.foldl (fun acc x => if x ∈ acc then acc else acc ++ [x]) acc ↔
      y ∈ acc ∨ y ∈ l := by
  induction l generalizing acc with
  | nil => simp
  | cons x xs ih =>
    simp only [List.foldl_cons]
    by_cases hx : x ∈ acc
    · rw [if_pos hx, ih acc]
      constructor
      · rintro (h | h)
        · exact Or.inl h
        · exact Or.inr (List.mem_cons_of_mem x h)
      · rintro (h | h)
        · exact Or.inl h
        · rcases List.mem_cons.mp h with rfl | h
          · exact Or.inl hx
          · exact Or.inr h
    · rw [if_neg hx, ih (acc ++ [x])]
      simp only [List.mem_append, List.mem_singleton, List.mem_cons]
      tauto

/-- The accumulator stays a prefix of the fold's result. -/
lemma dedupFirst_foldl_self_le (l : List α) (acc : List α) :
    acc <+: l.foldl (fun acc x => if x ∈ acc then acc else acc ++ [x]) acc := by
  induction l generalizing acc with
  | nil => exact ⟨[], List.append_nil acc⟩
  | cons x xs ih =>
    simp only [List.foldl_cons]
    by_cases hx : x ∈ acc
    · simpa [hx] using ih acc
    · rw [if_neg hx]
      exact List.IsPrefix.trans ⟨[x], rfl⟩ (ih (acc ++ [x]))

/-- `dedupFirst` is duplicate-free. -/
lemma dedupFirst_nodup (l : List α) : (dedupFirst l).Nodup :=
  dedupFirst_foldl_nodup l [] List.nodup_nil

/-- `dedupFirst` holds exactly the elements of its input. -/
lemma dedupFirst_mem (l : List α) (y : α) : y ∈ dedupFirst l ↔ y ∈ l := by
  rw [dedupFirst, dedupFirst_foldl_mem]
  simp

/-- Processing a longer traversal only appends to the already assigned
class list: identifiers are stable and monotonically increasing. -/
lemma dedupFirst_take_le (l : List α) (n : Nat) :
    dedupFirst (l.take n) <+: dedupFirst l := by
  conv_rhs => rw [dedupFirst, ← List.take_append_drop n l]
  rw [List.foldl_append]
  exact dedupFirst_foldl_self_le (l.drop n) _

end DedupLemmas

/-! ## Tally lemmas -/

section TallyLemmas

variable {γ : Type} [DecidableEq γ]

/-- A positive tally puts the value among the styles' property values. -/
lemma tally_pos_mem (l : List CellStyle) (f : CellStyle → γ) (P : γ → Prop)
    [DecidablePred P] (v : γ)
    (h : 0 < l.countP fun st => decide (f st = v ∧ P v)) : v ∈ l.map f :=
  countP_pos_mem_map l _ f v (fun st hst => (of_decide_eq_true hst).1) h

/-- The tallies of two distinct values sum to at most the population. -/
lemma tally_sum_le (l : List CellStyle) (f : CellStyle → γ) (P : γ → Prop)
    [DecidablePred P] (k v : γ) (hkv : k ≠ v) :
    (l.countP fun st => decide (f st = k ∧ P k)) +
      (l.countP fun st => decide (f st = v ∧ P v)) ≤ l.length :=
  countP_exclusive_sum_le l _ _ fun st hk hv =>
    hkv (((of_decide_eq_true hk).1).symm.trans (of_decide_eq_true hv).1)

/-- The unset value is never tallied. -/
lemma tally_unset_zero (l : List CellStyle) (f : CellStyle → γ) (P : γ → Prop)
    [DecidablePred P] (v : γ) (hv : ¬ P v) :
    (l.countP fun st => decide (f st = v ∧ P v)) = 0 :=
  List.countP_eq_zero.mpr fun st _ => by simp [hv]

/-- A positive wrap-text tally puts the value among the cells' wrap flags. -/
lemma tallyWrapText_pos_mem (m : WorkbookModel) (b : Bool)
    (h : 0 < tallyWrapText m b) :
    b ∈ (styledStyles m).map CellStyle.WrapText :=
  countP_pos_mem_map _ _ _ _ (fun st hst => of_decide_eq_true hst) h

/-- Completeness of an admissible key order: every positive-count key is
listed. -/
lemma keyOrder_complete (count : γ → Nat) (support keys : List γ)
    (h : IsKeyOrder count support keys)
    (hb : ∀ w, 0 < count w → w ∈ support) :
    ∀ w, 0 < count w → w ∈ keys :=
  fun w hw => h.2.2 w (hb w hw) hw

end TallyLemmas

/-! ## `computeDefaults` projections -/

lemma computeDefaults_fontFamily (m : WorkbookModel) (o : KeyOrders) :
    (computeDefaults m o).fontFamily =
      gatedDefault (tallyFontFamily m) "" o.ff (styledCellCount m) := rfl

lemma computeDefaults_fontSize (m : WorkbookModel) (o : KeyOrders) :
    (computeDefaults m o).fontSize =
      gatedDefault (tallyFontSize m) 0 o.fs (styledCellCount m) := rfl

lemma computeDefaults_borderColor (m : WorkbookModel) (o : KeyOrders) :
    (computeDefaults m o).borderColor =
      gatedDefault (tallyBorderColor m) "" o.bc (styledCellCount m) := rfl

lemma computeDefaults_hAlign (m : WorkbookModel) (o : KeyOrders) :
    (computeDefaults m o).hAlign =
      gatedDefault (tallyHAlign m) "" o.ha (styledCellCount m) := rfl

lemma computeDefaults_vAlign (m : WorkbookModel) (o : KeyOrders) :
    (computeDefaults m o).vAlign =
      gatedDefault (tallyVAlign m) "" o.va (styledCellCount m) := rfl

lemma computeDefaults_fontColor (m : WorkbookModel) (o : KeyOrders) :
    (computeDefaults m o).fontColor =
      gatedDefault (tallyFontColor m) "" o.fc (styledCellCount m) := rfl

lemma computeDefaults_bgColor (m : WorkbookModel) (o : KeyOrders) :
    (computeDefaults m o).bgColor =
      gatedDefault (tallyBgColor m) "" o.bg (styledCellCount m) := rfl

lemma computeDefaults_wrapText (m : WorkbookModel) (o : KeyOrders) :
    (computeDefaults m o).wrapText =
      (mostCommon (tallyWrapText m) false o.wt).1 := rfl

lemma computeDefaults_indentPx (m : WorkbookModel) (o : KeyOrders) :
    (computeDefaults m o).indentPx = 0 := rfl

/-! ## Characterization of the row-building loop (claim C4) -/

/-- The last physical row declaring absolute (0-based) row index `j` —
the one whose rendering survives, since each physical row fully overwrites
its slot. -/
def lastRowAt (raws : List RawRow) (j : Nat) : Option RawRow :=
  (raws.filter fun raw => raw.rowNum - 1 == j).getLast?

/-- The length the row slice reaches: the maximum declared row number. -/
def rowsUpperBound (raws : List RawRow) : Nat :=
  raws.foldl (fun acc raw => max acc raw.rowNum) 0

/-- What `buildRowsWith R raws` holds at index `j`: the rendering of the
last physical row declaring `j`, a zero row for a gap below the upper bound,
nothing beyond. -/
def expectedRowAt (R : RawRow → RenderRow) (raws : List RawRow) (j : Nat) :
    Option RenderRow :=
  match lastRowAt raws j with
  | some raw => some (R raw)
  | none => if j < rowsUpperBound raws then some zeroRenderRow else none

lemma rowsUpperBound_append (raws : List RawRow) (r : RawRow) :
    rowsUpperBound (raws ++ [r]) = max (rowsUpperBound raws) r.rowNum := by
  simp [rowsUpperBound, List.foldl_append]

lemma le_rowsUpperBound (raws : List RawRow) (raw : RawRow)
    (h : raw ∈ raws) : raw.rowNum ≤ rowsUpperBound raws := by
  induction raws using List.reverseRecOn with
  | nil => cases h
  | append_singleton raws r ih =>
    rw [rowsUpperBound_append]
    rcases List.mem_append.mp h with h | h
    · exact le_trans (ih h) (Nat.le_max_left _ _)
    · rw [List.mem_singleton.mp h]
      exact Nat.le_max_right _ _

/-- The characterization of the row loop: the slice's length is the maximum
declared row number, and each slot holds the last physical row declaring it,
or a zero row for a gap. -/
lemma buildRowsWith_char (R : RawRow → RenderRow) (raws : List RawRow)
    (h1 : ∀ raw ∈ raws, 1 ≤ raw.rowNum) :
    (buildRowsWith R raws).length = rowsUpperBound raws ∧
      ∀ j, (buildRowsWith R raws)[j]? = expectedRowAt R raws j := by
  induction raws using List.reverseRecOn with
  | nil =>
    refine ⟨rfl, fun j => ?_⟩
    simp [buildRowsWith, expectedRowAt, lastRowAt, rowsUpperBound]
  | append_singleton raws r ih =>
    obtain ⟨hlen, hget⟩ :=
      ih fun raw hraw => h1 raw (List.mem_append.mpr (Or.inl hraw))
    have hr1 : 1 ≤ r.rowNum :=
      h1 r (List.mem_append.mpr (Or.inr (List.mem_singleton.mpr rfl)))
    have hstep : buildRowsWith R (raws ++ [r]) =
        buildRowsStep R (buildRowsWith R raws) r := by
      simp [buildRowsWith, List.foldl_append]
    set prev := buildRowsWith R raws with hprev
    set i := r.rowNum - 1 with hidef
    have hi : i + 1 = r.rowNum := by omega
    have hgrown :
        buildRowsStep R prev r =
          (if prev.length ≤ i then
              prev ++ List.replicate (i + 1 - prev.length) zeroRenderRow
            else prev).set i (R r) := rfl
    set grown :=
      if prev.length ≤ i then
        prev ++ List.replicate (i + 1 - prev.length) zeroRenderRow
      else prev with hgrowndef
    have hgrownlen : grown.length = max prev.length (i + 1) := by
      rw [hgrowndef]
      by_cases hle : prev.length ≤ i
      · rw [if_pos hle]
        simp
        omega
      · rw [if_neg hle]
        omega
    have hlen' : (buildRowsWith R (raws ++ [r])).length =
        rowsUpperBound (raws ++ [r]) := by
      rw [hstep, hgrown, List.length_set, hgrownlen, rowsUpperBound_append,
        hlen]
      omega
    refine ⟨hlen', fun j => ?_⟩
    rw [hstep, hgrown]
    by_cases hji : j = i
    · have hjlt : i < grown.length := by rw [hgrownlen]; omega
      rw [hji, List.getElem?_set_self hjlt]
      have hlast : lastRowAt (raws ++ [r]) i = some r := by
        unfold lastRowAt
        rw [List.filter_append]
        have hpr : (r.rowNum - 1 == i) = true := by simp [hidef]
        simp [hpr]
      simp [expectedRowAt, hlast]
    · rw [List.getElem?_set_ne (fun h => hji h.symm)]
      have hlast : lastRowAt (raws ++ [r]) j = lastRowAt raws j := by
        unfold lastRowAt
        rw [List.filter_append]
        have : (r.rowNum - 1 == j) = false := by
          simp
          omega
        simp [this]
      have hub : rowsUpperBound (raws ++ [r]) =
          max (rowsUpperBound raws) (i + 1) := by
        rw [rowsUpperBound_append, hi]
      by_cases hjp : j < prev.length
      · have hgj : grown[j]? = prev[j]? := by
          rw [hgrowndef]
          by_cases hle : prev.length ≤ i
          · rw [if_pos hle]
            exact List.getElem?_append_left hjp
          · rw [if_neg hle]
        rw [hgj, hget j]
        unfold expectedRowAt
        rw [hlast]
        rcases hcase : lastRowAt raws j with _ | raw
        · simp only
          rw [hub]
          have : j < rowsUpperBound raws := by omega
          rw [if_pos this, if_pos (by omega)]
        · rfl
      · have hpj : prev[j]? = none := List.getElem?_eq_none (by omega)
        have hexp := hget j
        rw [hpj] at hexp
        have hlastnone : lastRowAt raws j = none := by
          rcases hcase : lastRowAt raws j with _ | raw
          · rfl
          · rw [expectedRowAt, hcase] at hexp
            cases hexp
        have hnotlt : ¬ j < rowsUpperBound raws := by
          intro hlt
          rw [expectedRowAt, hlastnone] at hexp
          simp only at hexp
          rw [if_pos hlt] at hexp
          cases hexp
        have hgj : grown[j]? =
            if j < i + 1 then some zeroRenderRow else none := by
          rw [hgrowndef]
          by_cases hle : prev.length ≤ i
          · rw [if_pos hle]
            rw [List.getElem?_append_right (by omega)]
            rw [List.getElem?_replicate]
            by_cases hji1 : j < i + 1
            · rw [if_pos (by omega), if_pos hji1]
            · rw [if_neg (by omega), if_neg hji1]
          · rw [if_neg hle]
            rw [hpj, if_neg (by omega)]
        rw [hgj]
        unfold expectedRowAt
        rw [hlast, hlastnone]
        simp only
        rw [hub]
        by_cases hji1 : j < i + 1
        · rw [if_pos hji1, if_pos (by omega)]
        · rw [if_neg hji1, if_neg (by omega)]

/-- With duplicate-free row numbers, at most one physical row declares a
given index. -/
lemma length_filter_rowAt_le_one (raws : List RawRow)
    (hnd : (raws.map RawRow.rowNum).Nodup)
    (h1 : ∀ raw ∈ raws, 1 ≤ raw.rowNum) (j : Nat) :
    (raws.filter fun raw => raw.rowNum - 1 == j).length ≤ 1 := by
  induction raws with
  | nil => simp
  | cons r rs ih =>
    simp only [List.map_cons, List.nodup_cons] at hnd
    by_cases hp : (r.rowNum - 1 == j) = true
    · have hnil : rs.filter (fun raw => raw.rowNum - 1 == j) = [] := by
        rw [List.filter_eq_nil_iff]
        intro x hx hpx
        apply hnd.1
        have hxj : x.rowNum - 1 = j := by simpa using hpx
        have hrj : r.rowNum - 1 = j := by simpa using hp
        have hx1 : 1 ≤ x.rowNum := h1 x (List.mem_cons_of_mem r hx)
        have hr1 : 1 ≤ r.rowNum := h1 r (List.mem_cons_self r rs)
        have : x.rowNum = r.rowNum := by omega
        exact this ▸ List.mem_map_of_mem RawRow.rowNum hx
      simp only [List.filter_cons, hp, if_true, hnil]
      simp
    · simp only [List.filter_cons, Bool.not_eq_true] at hp ⊢
      rw [hp, if_neg (by simp)]
      exact ih hnd.2 fun raw hraw => h1 raw (List.mem_cons_of_mem r hraw)

/-- Arrival order is irrelevant: permuting physical rows with distinct row
numbers leaves the built row slice unchanged. -/
lemma buildRowsWith_perm (R : RawRow → RenderRow) (raws raws' : List RawRow)
    (hperm : raws.Perm raws') (hnd : (raws.map RawRow.rowNum).Nodup)
    (h1 : ∀ raw ∈ raws, 1 ≤ raw.rowNum) :
    buildRowsWith R raws = buildRowsWith R raws' := by
  have h1' : ∀ raw ∈ raws', 1 ≤ raw.rowNum := fun raw hraw =>
    h1 raw (hperm.mem_iff.mpr hraw)
  have hnd' : (raws'.map RawRow.rowNum).Nodup :=
    (hperm.map RawRow.rowNum).nodup_iff.mp hnd
  obtain ⟨hlen, hget⟩ := buildRowsWith_char R raws h1
  obtain ⟨hlen', hget'⟩ := buildRowsWith_char R raws' h1'
  have hub : rowsUpperBound raws = rowsUpperBound raws' := by
    unfold rowsUpperBound
    exact hperm.foldl_eq' (fun x _ y _ z => by omega) 0
  have hlast : ∀ j, lastRowAt raws j = lastRowAt raws' j := by
    intro j
    unfold lastRowAt
    have hpf : (raws.filter fun raw => raw.rowNum - 1 == j).Perm
        (raws'.filter fun raw => raw.rowNum - 1 == j) :=
      hperm.filter _
    have hle := length_filter_rowAt_le_one raws hnd h1 j
    rcases hcase : raws.filter fun raw => raw.rowNum - 1 == j with _ | ⟨x, xs⟩
    · rw [hcase] at hpf
      have h2 : raws'.filter (fun raw => raw.rowNum - 1 == j) = [] :=
        List.perm_nil.mp hpf.symm
      rw [hcase, h2]
    · rw [hcase] at hpf hle
      simp only [List.length_cons] at hle
      have hxs : xs = [] := List.length_eq_zero.mp (by omega)
      subst hxs
      have h2 : raws'.filter (fun raw => raw.rowNum - 1 == j) = [x] :=
        hpf.symm.eq_singleton
      rw [hcase, h2]
  apply List.ext_getElem?
  intro j
  rw [hget j, hget' j]
  unfold expectedRowAt
  rw [hlast j, hub]

/-! ## Claim C7 — theme color resolution -/

/-- Any index outside 0–11 selects no palette slot. -/
lemma themeSlot_out_of_range (cs : RawClrScheme) (idx : Int)
    (h : ¬(0 ≤ idx ∧ idx ≤ 11)) : themeSlot cs idx = none := by
  have h0 : idx ≠ 0 := by omega
  have h1 : idx ≠ 1 := by omega
  have h2 : idx ≠ 2 := by omega
  have h3 : idx ≠ 3 := by omega
  have h4 : idx ≠ 4 := by omega
  have h5 : idx ≠ 5 := by omega
  have h6 : idx ≠ 6 := by omega
  have h7 : idx ≠ 7 := by omega
  have h8 : idx ≠ 8 := by omega
  have h9 : idx ≠ 9 := by omega
  have h10 : idx ≠ 10 := by omega
  have h11 : idx ≠ 11 := by omega
  simp [themeSlot, h0, h1, h2, h3, h4, h5, h6, h7, h8, h9, h10, h11]

/-- C7: when the theme palette is present, the index selects a slot in 0–11
and the slot resolves, `ThemeColorToRGB` returns the slot's base RGB value
unchanged with `ok = true` (the function applies no tint, so a zero or
absent tint trivially leaves the value unchanged); for an index outside
0–11, a missing palette, or an unresolvable slot, it reports
`("", false)` instead of faulting. -/
theorem c7_theme_color_resolution (themes : List (Option RawClrScheme))
    (idx : Int) :
    (∀ cs c v, themes.head? = some (some cs) → themeSlot cs idx = some c →
      resolveThemeColor c = some v → ThemeColorToRGB themes idx = (v, true)) ∧
    (¬(0 ≤ idx ∧ idx ≤ 11) → ThemeColorToRGB themes idx = ("", false)) ∧
    (themes.head? = none ∨ themes.head? = some none →
      ThemeColorToRGB themes idx = ("", false)) ∧
    (∀ cs, themes.head? = some (some cs) →
      (themeSlot cs idx = none ∨
        ∃ c, themeSlot cs idx = some c ∧ resolveThemeColor c = none) →
      ThemeColorToRGB themes idx = ("", false)) := by
  refine ⟨?_, ?_, ?_, ?_⟩
  · intro cs c v h1 h2 h3
    simp [ThemeColorToRGB, h1, h2, h3]
  · intro h
    rcases hh : themes.head? with _ | ocs
    · simp [ThemeColorToRGB, hh]
    · rcases ocs with _ | cs
      · simp [ThemeColorToRGB, hh]
      · simp [ThemeColorToRGB, hh, themeSlot_out_of_range cs idx h]
  · intro h
    rcases h with h | h <;> simp [ThemeColorToRGB, h]
  · intro cs h1 h2
    rcases h2 with h2 | ⟨c, hc, hres⟩
    · simp [ThemeColorToRGB, h1, h2]
    · simp [ThemeColorToRGB, h1, hc, hres]

/-- A concrete palette for the C7 witness. -/
def themesW : List (Option RawClrScheme) :=
  [some { accent1 := some { srgbClr := some "AABBCC" } }]

/-- Witness for C7: a resolvable accent slot returns its base value, an
out-of-range index reports `false`. -/
theorem c7_theme_color_resolution_w :
    ThemeColorToRGB themesW 4 = ("AABBCC", true) ∧
    ThemeColorToRGB themesW 12 = ("", false) :=
  ⟨(c7_theme_color_resolution themesW 4).1
      { accent1 := some { srgbClr := some "AABBCC" } }
      { srgbClr := some "AABBCC" } "AABBCC" rfl rfl rfl,
    (c7_theme_color_resolution themesW 12).2.1 (by omega)⟩

/-! ## Claim C8 — sanitizers -/

/-- C8 counterexample: `sanitizeColor` returns the empty input unchanged
even though it is not a 3- or 6-digit hex string, so "returns the input
unchanged iff it is 3- or 6-digit hex" fails at `""`. -/
theorem c8_sanitize_cx :
    ¬((sanitizeColor "" = "") ↔ (hexColorMatch "" = true)) := by decide

/-- C8 (amended): `sanitizeColor` passes valid 3- or 6-digit hex through
and maps everything else to `""` — so it returns its input unchanged
exactly when the input is valid hex or already empty; `sanitizeFontFamily`
keeps exactly the safe characters `[A-Za-z0-9 ,_-]` of its input, in
order. -/
theorem c8_sanitize_amended (s : String) :
    (hexColorMatch s = true → sanitizeColor s = s) ∧
    (hexColorMatch s = false → sanitizeColor s = "") ∧
    (sanitizeColor s = s ↔ (hexColorMatch s = true ∨ s = "")) ∧
    (∀ c ∈ (sanitizeFontFamily s).data, isFontSafeChar c = true) ∧
    ((sanitizeFontFamily s).data = s.data.filter isFontSafeChar) := by
  refine ⟨?_, ?_, ?_, ?_, rfl⟩
  · intro h
    simp [sanitizeColor, h]
  · intro h
    simp [sanitizeColor, h]
  · constructor
    · intro h
      by_cases hm : hexColorMatch s = true
      · exact Or.inl hm
      · right
        rw [sanitizeColor, if_neg (by simpa using hm)] at h
        exact h.symm
    · rintro (h | h)
      · simp [sanitizeColor, h]
      · subst h
        rfl
  · intro c hc
    have : c ∈ s.data.filter isFontSafeChar := hc
    exact (List.mem_filter.mp this).2

/-- Witness for C8 at a concrete hex color. -/
theorem c8_sanitize_amended_w : sanitizeColor "0F3" = "0F3" :=
  (c8_sanitize_amended "0F3").1 (by decide)

/-! ## Claim C9 — sparse-column write out of bounds -/

/-- A row whose single physical cell sits in column C. -/
def rowC9 : RawRow := { rowNum := 1, cells := [{ col := some "C" }] }

/-- A sheet holding only that row: the computed column count is 1. -/
def sheetC9 : RawSheet := { rows := [rowC9] }

def wbC9 : RawWorkbook := { sheets := [sheetC9] }

/-- C9: the claimed bound fails — with a single sparse row, the computed
column count is the row's cell count (1), yet the cell's resolved column
index is 2, so the source's `rr.Cells[colIdx] = rc` write is out of bounds
(a Go panic; the embedding's `List.set` models it as a dropped write,
leaving the cell absent from the IR). -/
theorem c9_sparse_column_oob :
    maxColsOf sheetC9 = 1 ∧ ColumnToIndex "C" = 2 ∧
    ¬(ColumnToIndex "C" < maxColsOf sheetC9) ∧
    (renderRowOf wbC9 sheetC9 (maxColsOf sheetC9) rowC9).Cells = [none] := by
  decide

/-! ## Claim C10 — style lookup totality -/

/-- A stylesheet with a single cell-format record. -/
def ssC10 : RawStyleSheet :=
  { cellXfs := [{}], fonts := [{}], fills := [{}], borders := [{}] }

/-- C10: for a style id beyond the `CellXfs.Xf` table (id 5 against a
1-entry table), the three guarded helper lookups yield `none`, but the
direct `CellXfs.Xf[styleID]` access the parser performs for alignment has
no entry to read — in Go an out-of-bounds panic, not an absent result. -/
theorem c10_style_lookup_oob :
    GetFontProps ssC10 5 = none ∧ GetFillProps ssC10 5 = none ∧
    GetBorderProps ssC10 5 = none ∧ ssC10.cellXfs[5]? = none ∧
    ¬(5 < ssC10.cellXfs.length) := by decide

/-! ## Claim C2 — merge spans and td emission -/

/-- The spec's 2×2 merge scenario: `A1:B2` (1-based rows, 0-based columns,
as `ParseRangeReference` returns them). -/
def mergeC2 : MergeRef := { fromRow := 1, fromCol := 0, toRow := 2, toCol := 1 }

def rowC2a : RawRow :=
  { rowNum := 1, cells := [{ col := some "A" }, { col := some "B" }] }

def rowC2b : RawRow :=
  { rowNum := 2, cells := [{ col := some "A" }, { col := some "B" }] }

def sheetC2 : RawSheet :=
  { rows := [rowC2a, rowC2b], merges := some [some mergeC2] }

def wbC2 : RawWorkbook := { sheets := [sheetC2] }

/-- C2: on the 2×2 merge at (0,0), the parser produces exactly one master
with `RowSpan = ColSpan = 2` and leaves the three covered positions empty in
the IR; the renderer's colspan skip suppresses the td for the horizontally
covered position (0,1), but the vertically covered positions (1,0) and
(1,1) are indistinguishable from blank cells and each still emits a
separate empty `<td>` — contradicting the claim's "no separate td element
is emitted for any covered non-master position". -/
theorem c2_merge_td_emission :
    ((((ParseWorkbookModel wbC2).Sheets.headD {}).Rows.headD {}).Cells =
      [some { Ref := "A1", ColSpan := 2, RowSpan := 2 }, none]) ∧
    ((((ParseWorkbookModel wbC2).Sheets.headD {}).Rows[1]?.getD zeroRenderRow).Cells =
      [none, none]) ∧
    (renderRowTds (((ParseWorkbookModel wbC2).Sheets.headD {}).Rows.headD {}) =
      [TdEmit.cell 0 { Ref := "A1", ColSpan := 2, RowSpan := 2 }]) ∧
    (renderRowTds (((ParseWorkbookModel wbC2).Sheets.headD {}).Rows[1]?.getD zeroRenderRow) =
      [TdEmit.blank 0, TdEmit.blank 1]) := by decide

/-! ## Claim C6 — rich-text runs versus plain value -/

/-- A rich text with two runs. -/
def rstC6 : RawRst := { r := [{ t := "a" }, { t := "b" }] }

/-- A cell holding that rich text inline, whose formatted value is "ab". -/
def cellC6 : RawCell := { col := some "A", value := "ab", is := some rstC6 }

def wbC6 : RawWorkbook := {}

def sheetC6 : RawSheet := {}

/-- C6 counterexample: for a cell with multiple rich-text runs the IR
builder populates `Runs` but does **not** leave `Value` empty — the
formatted value is stored alongside. -/
theorem c6_rich_text_cx :
    (buildCell wbC6 sheetC6 0 "A" cellC6).Runs ≠ [] ∧
    (buildCell wbC6 sheetC6 0 "A" cellC6).Value = "ab" ∧
    ("ab" : String) ≠ "" := by decide

/-- C6 (amended): for every cell whose rich text yields a non-empty run
list, the IR builder populates `Runs` with the built runs and also keeps
the formatted `Value` (it is not emptied); mutual exclusion holds at
render time — whenever `Runs` is non-empty the renderer emits the run
spans and its output is independent of `Value`. -/
theorem c6_rich_text_amended (wb : RawWorkbook) (s : RawSheet) (rowIdx : Nat)
    (colName : String) (cell : RawCell) (rt : RawRst)
    (hrt : cellRichTextString cell wb = some rt) (hne : rt.r ≠ []) :
    (buildCell wb s rowIdx colName cell).Runs = rt.r.map (buildRun wb.themes) ∧
    (buildCell wb s rowIdx colName cell).Value = cell.value ∧
    ∀ (fmtRun : RenderRun → String) (debug : Bool) (c : RenderCell),
      c.Runs ≠ [] →
      (cellInnerHTML fmtRun debug c =
        c.Runs.foldl (fun acc run => acc ++ runSpanHTML fmtRun debug run) "") ∧
      ∀ v, cellInnerHTML fmtRun debug { c with Value := v } =
        cellInnerHTML fmtRun debug c := by
  have hlen : rt.r.length > 0 := List.length_pos.mpr hne
  refine ⟨?_, ?_, ?_⟩
  · unfold buildCell
    rcases hms : mergeSpanAt s rowIdx (ColumnToIndex colName) with _ | sp <;>
      simp [hms, hrt, hlen]
  · unfold buildCell
    rcases hms : mergeSpanAt s rowIdx (ColumnToIndex colName) with _ | sp <;>
      simp [hms]
  · intro fmtRun debug c hc
    have hlen' : c.Runs.length > 0 := List.length_pos.mpr hc
    constructor
    · unfold cellInnerHTML
      rw [if_pos hlen']
    · intro v
      unfold cellInnerHTML
      rw [if_pos hlen', if_pos hlen']

/-- Witness for C6 at the two-run cell. -/
theorem c6_rich_text_amended_w :
    (buildCell wbC6 sheetC6 0 "A" cellC6).Runs =
      rstC6.r.map (buildRun wbC6.themes) :=
  (c6_rich_text_amended wbC6 sheetC6 0 "A" cellC6 rstC6 rfl (by decide)).1

/-! ## Claim C4 — sparse rows -/

def rowsC4 : List RawRow := [{ rowNum := 1 }, { rowNum := 3 }]

def sheetC4 : RawSheet := { rows := rowsC4 }

def wbC4 : RawWorkbook := { sheets := [sheetC4] }

/-- C4 counterexample: with physical rows 1 and 3, the gap row at index 1
materializes as the zero row — fully empty, but with height `0`, not the
claimed default height `15 pt × 1.333`. -/
theorem c4_sparse_rows_cx :
    (buildRows wbC4 sheetC4)[1]? = some zeroRenderRow ∧
    zeroRenderRow.HeightPx = 0 ∧
    zeroRenderRow.HeightPx ≠ 15 * (1333 / 1000) ∧
    zeroRenderRow.Cells = [] := by
  refine ⟨by decide, rfl, ?_, rfl⟩
  show (0 : ℚ) ≠ 15 * (1333 / 1000)
  norm_num

/-- C4 (amended): the output row sequence is indexed by absolute row
number — every referenced row index is in range, each slot holds the
rendering of the last physical row declaring it, arrival order is
irrelevant for duplicate-free row numbers — and each gap row materializes
as the zero `RenderRow`: fully empty, with height `0` (not the default
15 pt row height). -/
theorem c4_sparse_rows_amended (wb : RawWorkbook) (s : RawSheet)
    (h1 : ∀ raw ∈ s.rows, 1 ≤ raw.rowNum) :
    (∀ raw ∈ s.rows, raw.rowNum - 1 < (buildRows wb s).length) ∧
    (∀ j, (buildRows wb s)[j]? =
      expectedRowAt (renderRowOf wb s (maxColsOf s)) s.rows j) ∧
    (∀ j, j < (buildRows wb s).length →
      (∀ raw ∈ s.rows, raw.rowNum - 1 ≠ j) →
      (buildRows wb s)[j]? = some zeroRenderRow) ∧
    ((s.rows.map RawRow.rowNum).Nodup → ∀ raws', s.rows.Perm raws' →
      buildRows wb s = buildRows wb { s with rows := raws' }) := by
  obtain ⟨hlen, hget⟩ :=
    buildRowsWith_char (renderRowOf wb s (maxColsOf s)) s.rows h1
  have hbr : buildRows wb s =
      buildRowsWith (renderRowOf wb s (maxColsOf s)) s.rows := rfl
  refine ⟨?_, ?_, ?_, ?_⟩
  · intro raw hraw
    rw [hbr, hlen]
    have h2 := le_rowsUpperBound s.rows raw hraw
    have h3 := h1 raw hraw
    omega
  · intro j
    rw [hbr]
    exact hget j
  · intro j hj hnone
    rw [hbr, hget j]
    unfold expectedRowAt
    have hfil : s.rows.filter (fun raw => raw.rowNum - 1 == j) = [] := by
      rw [List.filter_eq_nil_iff]
      intro raw hraw
      simpa using hnone raw hraw
    unfold lastRowAt
    rw [hfil]
    simp only [List.getLast?_nil]
    rw [hbr, hlen] at hj
    rw [if_pos hj]
  · intro hnd raws' hperm
    have hmc : maxColsOf { s with rows := raws' } = maxColsOf s := by
      unfold maxColsOf
      exact (hperm.foldl_eq' (fun x _ y _ z => by omega) 0).symm
    have hR : renderRowOf wb { s with rows := raws' } =
        renderRowOf wb s := rfl
    have e2 : buildRows wb { s with rows := raws' } =
        buildRowsWith (renderRowOf wb s (maxColsOf s)) raws' := by
      unfold buildRows
      rw [hmc, hR]
    rw [hbr, e2]
    exact buildRowsWith_perm _ s.rows raws' hperm hnd h1

/-- Witness for C4 at the sparse two-row sheet. -/
theorem c4_sparse_rows_amended_w :
    (buildRows wbC4 sheetC4)[1]? =
      expectedRowAt (renderRowOf wbC4 sheetC4 (maxColsOf sheetC4))
        sheetC4.rows 1 :=
  (c4_sparse_rows_amended wbC4 sheetC4 (by decide)).2.1 1

/-! ## Claim C3 — majority defaults -/

/-- A style whose only non-default property is the font family. -/
def styleArial : CellStyle := { FontFamily := "Arial" }

/-- One cell styled with Arial and two present-but-unstyled cells. -/
def mC3 : WorkbookModel :=
  { Sheets := [{ Rows := [{ Cells :=
      [some { Style := styleArial }, some {}, some {}] }] }] }

def oC3 : KeyOrders := { ff := ["Arial"], wt := [false] }

/-- C3 counterexample: under the claim's rule ("styled cells" are the cells
with at least one non-default property) Arial holds a strict majority
(1 of 1) and would become the document default, but the code divides by the
count of **all** present cells (3), so 1 ≤ 3/2 and no default is
adopted. -/
theorem c3_majority_cx :
    specAdoptsFontFamily mC3 "Arial" ∧ Admissible mC3 oC3 ∧
    (computeDefaults mC3 oC3).fontFamily = "" := by decide

/-- C3 (amended): the tallies run over all present cells and the
denominator `styledCells` counts every present cell, styled or not; for the
seven gated properties a value becomes the document default iff its tally
strictly exceeds `styledCells / 2` (integer division — equivalently,
strictly exceeds half); wrap-text is not gated: its default is simply a
most common value, and the indent default is always `0`. -/
theorem c3_majority_amended (m : WorkbookModel) (o : KeyOrders)
    (h : Admissible m o) :
    (∀ v, v ≠ "" → ((computeDefaults m o).fontFamily = v ↔
      styledCellCount m / 2 < tallyFontFamily m v)) ∧
    (∀ q : ℚ, q ≠ 0 → ((computeDefaults m o).fontSize = q ↔
      styledCellCount m / 2 < tallyFontSize m q)) ∧
    (∀ v, v ≠ "" → ((computeDefaults m o).borderColor = v ↔
      styledCellCount m / 2 < tallyBorderColor m v)) ∧
    (∀ v, v ≠ "" → ((computeDefaults m o).hAlign = v ↔
      styledCellCount m / 2 < tallyHAlign m v)) ∧
    (∀ v, v ≠ "" → ((computeDefaults m o).vAlign = v ↔
      styledCellCount m / 2 < tallyVAlign m v)) ∧
    (∀ v, v ≠ "" → ((computeDefaults m o).fontColor = v ↔
      styledCellCount m / 2 < tallyFontColor m v)) ∧
    (∀ v, v ≠ "" → ((computeDefaults m o).bgColor = v ↔
      styledCellCount m / 2 < tallyBgColor m v)) ∧
    (∀ b, tallyWrapText m b ≤
      tallyWrapText m (computeDefaults m o).wrapText) ∧
    (computeDefaults m o).indentPx = 0 := by
  obtain ⟨hff, hfs, hbc, hha, hva, hfc, hbg, hwt⟩ := h
  refine ⟨?_, ?_, ?_, ?_, ?_, ?_, ?_, ?_, rfl⟩
  · intro v hv
    rw [computeDefaults_fontFamily]
    exact gatedDefault_eq_iff (tallyFontFamily m) "" o.ff (styledCellCount m)
      v hv
      (keyOrder_complete _ _ _ hff fun w hw =>
        tally_pos_mem (styledStyles m) CellStyle.FontFamily
          (fun x => x ≠ "") w hw)
      (fun k hk => tally_sum_le (styledStyles m) CellStyle.FontFamily
        (fun x => x ≠ "") k v hk)
  · intro q hq
    rw [computeDefaults_fontSize]
    exact gatedDefault_eq_iff (tallyFontSize m) 0 o.fs (styledCellCount m)
      q hq
      (keyOrder_complete _ _ _ hfs fun w hw =>
        tally_pos_mem (styledStyles m) CellStyle.FontSizePt
          (fun x => 0 < x) w hw)
      (fun k hk => tally_sum_le (styledStyles m) CellStyle.FontSizePt
        (fun x => 0 < x) k q hk)
  · intro v hv
    rw [computeDefaults_borderColor]
    exact gatedDefault_eq_iff (tallyBorderColor m) "" o.bc (styledCellCount m)
      v hv
      (keyOrder_complete _ _ _ hbc fun w hw =>
        tally_pos_mem (styledStyles m) CellStyle.BorderColor
          (fun x => x ≠ "") w hw)
      (fun k hk => tally_sum_le (styledStyles m) CellStyle.BorderColor
        (fun x => x ≠ "") k v hk)
  · intro v hv
    rw [computeDefaults_hAlign]
    exact gatedDefault_eq_iff (tallyHAlign m) "" o.ha (styledCellCount m)
      v hv
      (keyOrder_complete _ _ _ hha fun w hw =>
        tally_pos_mem (styledStyles m) CellStyle.HorizontalAlign
          (fun x => x ≠ "") w hw)
      (fun k hk => tally_sum_le (styledStyles m) CellStyle.HorizontalAlign
        (fun x => x ≠ "") k v hk)
  · intro v hv
    rw [computeDefaults_vAlign]
    exact gatedDefault_eq_iff (tallyVAlign m) "" o.va (styledCellCount m)
      v hv
      (keyOrder_complete _ _ _ hva fun w hw =>
        tally_pos_mem (styledStyles m) CellStyle.VerticalAlign
          (fun x => x ≠ "") w hw)
      (fun k hk => tally_sum_le (styledStyles m) CellStyle.VerticalAlign
        (fun x => x ≠ "") k v hk)
  · intro v hv
    rw [computeDefaults_fontColor]
    exact gatedDefault_eq_iff (tallyFontColor m) "" o.fc (styledCellCount m)
      v hv
      (keyOrder_complete _ _ _ hfc fun w hw =>
        tally_pos_mem (styledStyles m) CellStyle.FontColor
          (fun x => x ≠ "") w hw)
      (fun k hk => tally_sum_le (styledStyles m) CellStyle.FontColor
        (fun x => x ≠ "") k v hk)
  · intro v hv
    rw [computeDefaults_bgColor]
    exact gatedDefault_eq_iff (tallyBgColor m) "" o.bg (styledCellCount m)
      v hv
      (keyOrder_complete _ _ _ hbg fun w hw =>
        tally_pos_mem (styledStyles m) CellStyle.BackgroundColor
          (fun x => x ≠ "") w hw)
      (fun k hk => tally_sum_le (styledStyles m) CellStyle.BackgroundColor
        (fun x => x ≠ "") k v hk)
  · intro b
    rw [computeDefaults_wrapText]
    exact mostCommon_fst_max (tallyWrapText m) false o.wt
      (keyOrder_complete _ _ _ hwt fun w hw =>
        tallyWrapText_pos_mem m w hw) b

/-- Witness for C3 at the concrete document. -/
theorem c3_majority_amended_w :
    (computeDefaults mC3 oC3).fontFamily = "Arial" ↔
      styledCellCount mC3 / 2 < tallyFontFamily mC3 "Arial" :=
  (c3_majority_amended mC3 oC3 (by decide)).1 "Arial" (by decide)

/-! ## Claim C5 — determinism of the deduplicator -/

def cellWrapT : RenderCell := { Style := { WrapText := true } }

def cellWrapF : RenderCell := {}

/-- Two present cells whose wrap-text flags are tied 1–1. -/
def mC5 : WorkbookModel :=
  { Sheets := [{ Rows := [{ Cells := [some cellWrapT, some cellWrapF] }] }] }

def oC5a : KeyOrders := { wt := [true, false] }

def oC5b : KeyOrders := { wt := [false, true] }

/-- C5 counterexample: with wrap-text counts tied, two admissible map
iteration orders yield different default sets (the wrap-text default is
whichever tied key the map iteration visits first), so the result does
depend on map iteration order. -/
theorem c5_idempotence_cx :
    Admissible mC5 oC5a ∧ Admissible mC5 oC5b ∧
    computeDefaults mC5 oC5a ≠ computeDefaults mC5 oC5b := by decide

/-- C5 (amended): the seven majority-gated defaults and the indent default
are independent of the map iteration orders (so a second run with the same
orders — the deduplicator is a pure function — or any other admissible
orders reproduces them); the class list is duplicate-free, holds exactly
the styles of the present cells, and grows append-only along the traversal
(first-seen order with stable, monotonically increasing identifiers).  Only
the ungated wrap-text default can differ between admissible orders, and
only under a tie (see the counterexample). -/
theorem c5_idempotence_amended (m : WorkbookModel) (o1 o2 : KeyOrders)
    (h1 : Admissible m o1) (h2 : Admissible m o2) :
    (computeDefaults m o1).fontFamily = (computeDefaults m o2).fontFamily ∧
    (computeDefaults m o1).fontSize = (computeDefaults m o2).fontSize ∧
    (computeDefaults m o1).borderColor = (computeDefaults m o2).borderColor ∧
    (computeDefaults m o1).hAlign = (computeDefaults m o2).hAlign ∧
    (computeDefaults m o1).vAlign = (computeDefaults m o2).vAlign ∧
    (computeDefaults m o1).fontColor = (computeDefaults m o2).fontColor ∧
    (computeDefaults m o1).bgColor = (computeDefaults m o2).bgColor ∧
    (computeDefaults m o1).indentPx = (computeDefaults m o2).indentPx ∧
    (styleClasses m).Nodup ∧
    (∀ st, st ∈ styleClasses m ↔ st ∈ styledStyles m) ∧
    (∀ k, dedupFirst ((styledStyles m).take k) <+: styleClasses m) := by
  obtain ⟨hff1, hfs1, hbc1, hha1, hva1, hfc1, hbg1, _⟩ := h1
  obtain ⟨hff2, hfs2, hbc2, hha2, hva2, hfc2, hbg2, _⟩ := h2
  refine ⟨?_, ?_, ?_, ?_, ?_, ?_, ?_, rfl, dedupFirst_nodup _,
    fun st => dedupFirst_mem _ st, fun k => dedupFirst_take_le _ k⟩
  · rw [computeDefaults_fontFamily, computeDefaults_fontFamily]
    exact gatedDefault_order_indep (tallyFontFamily m) "" o1.ff o2.ff
      (styledCellCount m)
      (keyOrder_complete _ _ _ hff1 fun w hw =>
        tally_pos_mem (styledStyles m) CellStyle.FontFamily
          (fun x => x ≠ "") w hw)
      (keyOrder_complete _ _ _ hff2 fun w hw =>
        tally_pos_mem (styledStyles m) CellStyle.FontFamily
          (fun x => x ≠ "") w hw)
      (tally_unset_zero (styledStyles m) CellStyle.FontFamily
        (fun x => x ≠ "") "" (by simp))
      (fun k j hkj => tally_sum_le (styledStyles m) CellStyle.FontFamily
        (fun x => x ≠ "") k j hkj)
  · rw [computeDefaults_fontSize, computeDefaults_fontSize]
    exact gatedDefault_order_indep (tallyFontSize m) 0 o1.fs o2.fs
      (styledCellCount m)
      (keyOrder_complete _ _ _ hfs1 fun w hw =>
        tally_pos_mem (styledStyles m) CellStyle.FontSizePt
          (fun x => 0 < x) w hw)
      (keyOrder_complete _ _ _ hfs2 fun w hw =>
        tally_pos_mem (styledStyles m) CellStyle.FontSizePt
          (fun x => 0 < x) w hw)
      (tally_unset_zero (styledStyles m) CellStyle.FontSizePt
        (fun x => 0 < x) 0 (by simp))
      (fun k j hkj => tally_sum_le (styledStyles m) CellStyle.FontSizePt
        (fun x => 0 < x) k j hkj)
  · rw [computeDefaults_borderColor, computeDefaults_borderColor]
    exact gatedDefault_order_indep (tallyBorderColor m) "" o1.bc o2.bc
      (styledCellCount m)
      (keyOrder_complete _ _ _ hbc1 fun w hw =>
        tally_pos_mem (styledStyles m) CellStyle.BorderColor
          (fun x => x ≠ "") w hw)
      (keyOrder_complete _ _ _ hbc2 fun w hw =>
        tally_pos_mem (styledStyles m) CellStyle.BorderColor
          (fun x => x ≠ "") w hw)
      (tally_unset_zero (styledStyles m) CellStyle.BorderColor
        (fun x => x ≠ "") "" (by simp))
      (fun k j hkj => tally_sum_le (styledStyles m) CellStyle.BorderColor
        (fun x => x ≠ "") k j hkj)
  · rw [computeDefaults_hAlign, computeDefaults_hAlign]
    exact gatedDefault_order_indep (tallyHAlign m) "" o1.ha o2.ha
      (styledCellCount m)
      (keyOrder_complete _ _ _ hha1 fun w hw =>
        tally_pos_mem (styledStyles m) CellStyle.HorizontalAlign
          (fun x => x ≠ "") w hw)
      (keyOrder_complete _ _ _ hha2 fun w hw =>
        tally_pos_mem (styledStyles m) CellStyle.HorizontalAlign
          (fun x => x ≠ "") w hw)
      (tally_unset_zero (styledStyles m) CellStyle.HorizontalAlign
        (fun x => x ≠ "") "" (by simp))
      (fun k j hkj => tally_sum_le (styledStyles m) CellStyle.HorizontalAlign
        (fun x => x ≠ "") k j hkj)
  · rw [computeDefaults_vAlign, computeDefaults_vAlign]
    exact gatedDefault_order_indep (tallyVAlign m) "" o1.va o2.va
      (styledCellCount m)
      (keyOrder_complete _ _ _ hva1 fun w hw =>
        tally_pos_mem (styledStyles m) CellStyle.VerticalAlign
          (fun x => x ≠ "") w hw)
      (keyOrder_complete _ _ _ hva2 fun w hw =>
        tally_pos_mem (styledStyles m) CellStyle.VerticalAlign
          (fun x => x ≠ "") w hw)
      (tally_unset_zero (styledStyles m) CellStyle.VerticalAlign
        (fun x => x ≠ "") "" (by simp))
      (fun k j hkj => tally_sum_le (styledStyles m) CellStyle.VerticalAlign
        (fun x => x ≠ "") k j hkj)
  · rw [computeDefaults_fontColor, computeDefaults_fontColor]
    exact gatedDefault_order_indep (tallyFontColor m) "" o1.fc o2.fc
      (styledCellCount m)
      (keyOrder_complete _ _ _ hfc1 fun w hw =>
        tally_pos_mem (styledStyles m) CellStyle.FontColor
          (fun x => x ≠ "") w hw)
      (keyOrder_complete _ _ _ hfc2 fun w hw =>
        tally_pos_mem (styledStyles m) CellStyle.FontColor
          (fun x => x ≠ "") w hw)
      (tally_unset_zero (styledStyles m) CellStyle.FontColor
        (fun x => x ≠ "") "" (by simp))
      (fun k j hkj => tally_sum_le (styledStyles m) CellStyle.FontColor
        (fun x => x ≠ "") k j hkj)
  · rw [computeDefaults_bgColor, computeDefaults_bgColor]
    exact gatedDefault_order_indep (tallyBgColor m) "" o1.bg o2.bg
      (styledCellCount m)
      (keyOrder_complete _ _ _ hbg1 fun w hw =>
        tally_pos_mem (styledStyles m) CellStyle.BackgroundColor
          (fun x => x ≠ "") w hw)
      (keyOrder_complete _ _ _ hbg2 fun w hw =>
        tally_pos_mem (styledStyles m) CellStyle.BackgroundColor
          (fun x => x ≠ "") w hw)
      (tally_unset_zero (styledStyles m) CellStyle.BackgroundColor
        (fun x => x ≠ "") "" (by simp))
      (fun k j hkj => tally_sum_le (styledStyles m) CellStyle.BackgroundColor
        (fun x => x ≠ "") k j hkj)

/-- Witness for C5: the two tied orders of the counterexample still agree
on every gated default. -/
theorem c5_idempotence_amended_w :
    (computeDefaults mC5 oC5a).fontFamily =
      (computeDefaults mC5 oC5b).fontFamily :=
  (c5_idempotence_amended mC5 oC5a oC5b (by decide) (by decide)).1

/-! ## Claim C1 — round-trip of deduplication -/

/-- A matching color passes `sanitizeColor` unchanged. -/
lemma sanitizeColor_of_match {v : String} (h : hexColorMatch v = true) :
    sanitizeColor v = v := by
  simp [sanitizeColor, h]

/-- Reconstruction from defaults plus class declarations yields the
defaults-overridden record: set (and serialization-clean) properties come
back exactly, unset properties come back as the document default. -/
lemma reconstruct_eq_override (d : StyleDefaults) (s : CellStyle)
    (hc : CleanStyle s) :
    reconstructStyle d (styleToCSSDiff s d) = overrideDefaults d s := by
  obtain ⟨hcf, hfc, hbg, hbc, hha, hva, hsz, hind⟩ := hc
  unfold reconstructStyle styleToCSSDiff overrideDefaults
  simp only [CellStyle.mk.injEq]
  refine ⟨?_, ?_, ?_, ?_, ?_, ?_, ?_, ?_, ?_⟩
  · by_cases h1 : s.FontFamily = ""
    · simp [h1]
    · by_cases h2 : s.FontFamily = d.fontFamily
      · simp [h1, h2]
      · simp [h1, h2, hcf]
  · by_cases h1 : s.FontSizePt = 0
    · simp [h1]
    · have hpos : 0 < s.FontSizePt := lt_of_le_of_ne hsz (Ne.symm h1)
      by_cases h2 : s.FontSizePt = d.fontSize
      · simp [h1, h2]
      · simp [h1, h2, hpos]
  · rcases hfc with h0 | hmatch
    · simp [h0]
    · have hsan := sanitizeColor_of_match hmatch
      by_cases h1 : s.FontColor = ""
      · simp [h1]
      · by_cases h2 : s.FontColor = d.fontColor
        · simp [h1, h2]
        · simp [h1, h2, hsan]
  · rcases hbg with h0 | hmatch
    · simp [h0]
    · have hsan := sanitizeColor_of_match hmatch
      by_cases h1 : s.BackgroundColor = ""
      · simp [h1]
      · by_cases h2 : s.BackgroundColor = d.bgColor
        · simp [h1, h2]
        · simp [h1, h2, hsan]
  · rcases hbc with h0 | hmatch
    · simp [h0]
    · have hsan := sanitizeColor_of_match hmatch
      by_cases h1 : s.BorderColor = ""
      · simp [h1]
      · by_cases h2 : s.BorderColor = d.borderColor
        · simp [h1, h2]
        · simp [h1, h2, hsan]
  · simp only [List.mem_cons, List.mem_singleton, List.not_mem_nil,
      or_false] at hha
    rcases hha with h | h | h | h | h
    · simp [h]
    · rw [h]
      by_cases h2 : ("left" : String) = d.hAlign
      · simp [h2]
      · simp [h2, cssTextAlign]
    · rw [h]
      by_cases h2 : ("center" : String) = d.hAlign
      · simp [h2]
      · simp [h2, cssTextAlign]
    · rw [h]
      by_cases h2 : ("right" : String) = d.hAlign
      · simp [h2]
      · simp [h2, cssTextAlign]
    · rw [h]
      by_cases h2 : ("justify" : String) = d.hAlign
      · simp [h2]
      · simp [h2, cssTextAlign]
  · simp only [List.mem_cons, List.mem_singleton, List.not_mem_nil,
      or_false] at hva
    rcases hva with h | h | h | h
    · simp [h]
    · rw [h]
      by_cases h2 : ("top" : String) = d.vAlign
      · simp [h2]
      · simp [h2, cssVerticalAlign]
    · rw [h]
      by_cases h2 : ("middle" : String) = d.vAlign
      · simp [h2]
      · simp [h2, cssVerticalAlign]
    · rw [h]
      by_cases h2 : ("bottom" : String) = d.vAlign
      · simp [h2]
      · simp [h2, cssVerticalAlign]
  · by_cases h : s.WrapText = d.wrapText <;> simp [h]
  · by_cases h1 : s.IndentPx = 0
    · simp [h1]
    · have hpos : 0 < s.IndentPx := lt_of_le_of_ne hind (Ne.symm h1)
      by_cases h2 : s.IndentPx = d.indentPx
      · simp [h1, h2]
      · simp [h1, h2, hpos]

/-- When no property is unset while a default exists, overriding with the
defaults is the identity. -/
lemma override_eq_self (d : StyleDefaults) (s : CellStyle)
    (h : NoUnsetWithDefault d s) : overrideDefaults d s = s := by
  obtain ⟨sFF, sSz, sFC, sBG, sBC, sHA, sVA, sWT, sIP⟩ := s
  obtain ⟨h1, h2, h3, h4, h5, h6, h7, h8⟩ := h
  simp only at h1 h2 h3 h4 h5 h6 h7 h8
  unfold overrideDefaults
  simp only [CellStyle.mk.injEq]
  refine ⟨?_, ?_, ?_, ?_, ?_, ?_, ?_, trivial, ?_⟩
  · by_cases hx : sFF = ""
    · rcases h1 with hne | hd
      · exact absurd hx hne
      · simp [hx, hd]
    · simp [hx]
  · by_cases hx : sSz = 0
    · rcases h2 with hne | hd
      · exact absurd hx hne
      · simp [hx, hd]
    · simp [hx]
  · by_cases hx : sFC = ""
    · rcases h3 with hne | hd
      · exact absurd hx hne
      · simp [hx, hd]
    · simp [hx]
  · by_cases hx : sBG = ""
    · rcases h4 with hne | hd
      · exact absurd hx hne
      · simp [hx, hd]
    · simp [hx]
  · by_cases hx : sBC = ""
    · rcases h5 with hne | hd
      · exact absurd hx hne
      · simp [hx, hd]
    · simp [hx]
  · by_cases hx : sHA = ""
    · rcases h6 with hne | hd
      · exact absurd hx hne
      · simp [hx, hd]
    · simp [hx]
  · by_cases hx : sVA = ""
    · rcases h7 with hne | hd
      · exact absurd hx hne
      · simp [hx, hd]
    · simp [hx]
  · by_cases hx : sIP = 0
    · rcases h8 with hne | hd
      · exact absurd hx hne
      · simp [hx, hd]
    · simp [hx]

/-- Two Arial-styled cells and one present unstyled cell: Arial becomes the
document-wide font-family default. -/
def mC1 : WorkbookModel :=
  { Sheets := [{ Rows := [{ Cells :=
      [some { Style := styleArial }, some { Style := styleArial },
        some {}] }] }] }

def oC1 : KeyOrders := { ff := ["Arial"], wt := [false] }

/-- C1 counterexample: the unstyled cell's class emits no declaration, so
reconstructing its effective style from the defaults plus its class yields
font family "Arial" where the cell's resolved record has the property
unset — the round trip is not the identity when a property is unset on the
cell while a non-empty default exists. -/
theorem c1_roundtrip_cx :
    Admissible mC1 oC1 ∧ (({} : CellStyle) ∈ styledStyles mC1) ∧
    reconstructStyle (computeDefaults mC1 oC1)
        (styleToCSSDiff {} (computeDefaults mC1 oC1)) ≠ ({} : CellStyle) := by
  decide

/-- C1 (amended): for every cell of the IR whose record is
serialization-clean, reconstructing from the computed defaults and the
cell's class declarations yields the record with each **set** property
intact and each **unset** property replaced by the document default; the
round trip is the identity exactly on cells with no unset property behind a
non-empty default. -/
theorem c1_roundtrip_amended (m : WorkbookModel) (o : KeyOrders)
    (s : CellStyle) (hs : s ∈ styledStyles m) (hc : CleanStyle s) :
    reconstructStyle (computeDefaults m o)
        (styleToCSSDiff s (computeDefaults m o)) =
      overrideDefaults (computeDefaults m o) s ∧
    (NoUnsetWithDefault (computeDefaults m o) s →
      reconstructStyle (computeDefaults m o)
          (styleToCSSDiff s (computeDefaults m o)) = s) := by
  have h1 := reconstruct_eq_override (computeDefaults m o) s hc
  exact ⟨h1, fun hn => h1.trans (override_eq_self (computeDefaults m o) s hn)⟩

/-- Witness for C1 at the Arial-styled cell of the concrete document. -/
theorem c1_roundtrip_amended_w :
    reconstructStyle (computeDefaults mC1 oC1)
        (styleToCSSDiff styleArial (computeDefaults mC1 oC1)) =
      overrideDefaults (computeDefaults mC1 oC1) styleArial :=
  (c1_roundtrip_amended mC1 oC1 styleArial (by decide) (by decide)).1

end Convert
